import Mathlib

/-!
Verification of the update-ingestion and session-lifecycle core of the
`cloud-Ai` Telegram chat-relay service (`src/handler.py`).

The handler is embedded shallowly: the single DynamoDB table
(`chatbot-sessions`) is a list of keyed items, the S3 archive bucket is an
association list keyed by `(user_id, session_id)` (modelling the object path
`archives/{user_id}/{session_id}.json`, which is injective for slash-free
session ids), and all side effects (Telegram sends/edits, time, uuid
generation, the Ollama completion backend, fault injection for the stores)
are threaded through an explicit `World` state.  Python exceptions that
escape a function are modelled with `Except`; `try/except` blocks that
swallow errors are modelled by consulting the corresponding fault flag and
continuing exactly as the source does.
-/

namespace CloudAi

/-- One conversation entry `{role, content, ts}` as appended by
`handle_message` / read by `/history`. -/
structure Msg where
  role : String
  content : String
  ts : Nat
deriving DecidableEq

/-- A `{role, content}` pair sent to the Ollama chat endpoint. -/
structure OMsg where
  role : String
  content : String
deriving DecidableEq

/-- Sort keys of the DynamoDB table, structured.  The source encodes them as
strings: `last_update_id` (offset row), `update#{update_id}` (dedup marker),
`MODEL#{model}#SESSION#{session_id}` (session row).  The three families are
disjoint as strings and the session encoding is injective for the model
names the code uses, so constructor equality models string equality.
`otherSk` stands for any other string. -/
inductive SK where
  | lastUpdateId : SK
  | updateMark : Int → SK
  | modelSession : String → String → SK
  | otherSk : String → SK
deriving DecidableEq

/-- `sk.startswith('MODEL#')` on a structured sort key. -/
def isModelSK : SK → Bool
  | .modelSession _ _ => true
  | _ => false

/-- A session item as stored by `create_session` / `append_to_conversation`.
`pending_request_ts` models the optional `pending_request_ts` key: the code
always reads it with `session.get("pending_request_ts", 0)`, so a missing
key is represented by `0` (the value `create_session` implicitly gives it). -/
structure Session where
  pk : Int
  sk : SK
  model_name : String
  session_id : String
  is_active : Nat
  last_message_ts : Nat
  conversation : List Msg
  user_id : Int
  s3_path : String
  pending_request_ts : Nat
deriving DecidableEq

/-- An item of the `chatbot-sessions` table: a session row, the offset row
(`pk=0, sk='last_update_id'`, fields `last_offset`/`last_updated_ts`), or a
dedup marker row (`pk=0, sk='update#{id}'`, field `ts`). -/
inductive Item where
  | sess : Session → Item
  | offsetRow : Int → Nat → Item
  | dedupRow : Int → Nat → Item
deriving DecidableEq

/-- The `(pk, sk)` primary key of an item. -/
def itemKey : Item → Int × SK
  | .sess s => (s.pk, s.sk)
  | .offsetRow _ _ => (0, .lastUpdateId)
  | .dedupRow uid _ => (0, .updateMark uid)

/-- `item.get('is_active', 0)`: only session rows carry the attribute. -/
def itemIsActive : Item → Nat
  | .sess s => s.is_active
  | _ => 0

/-- `table.get_item(Key=k)`: first item with the given primary key. -/
def getItem (t : List Item) (k : Int × SK) : Option Item :=
  t.find? (fun it => decide (itemKey it = k))

/-- `table.put_item(Item=it)`: overwrite the item with the same key, or
insert.  The position of an existing key is kept; listing order is not
load-bearing for any claim (DynamoDB would return query results sorted by
sort key). -/
def putItem (t : List Item) (it : Item) : List Item :=
  match t with
  | [] => [it]
  | x :: xs => if itemKey x = itemKey it then it :: xs else x :: putItem xs it

/-- `table.delete_item(Key=k)`. -/
def deleteItem (t : List Item) (k : Int × SK) : List Item :=
  t.filter (fun it => decide (itemKey it ≠ k))

/-- `table.query(KeyConditionExpression=Key('pk').eq(pk))`. -/
def queryPk (t : List Item) (pk : Int) : List Item :=
  t.filter (fun it => decide ((itemKey it).1 = pk))

/-- The per-row effect of `SET is_active = :val` at key `k`: only the
session row at that key changes. -/
def updFn (k : Int × SK) (v : Nat) (it : Item) : Item :=
  match it with
  | .sess s =>
    if (s.pk, s.sk) = k then .sess { s with is_active := v } else .sess s
  | other => other

/-- `table.update_item(Key=k, UpdateExpression='SET is_active = :val')`.
Call sites only ever pass keys of existing session rows (obtained from a
query of the same table), so the model updates in place and only touches
session items. -/
def updateIsActive (t : List Item) (k : Int × SK) (v : Nat) : List Item :=
  t.map (updFn k v)

/-- An archive record as serialized to S3.  `origin` distinguishes the two
shapes written by the source: `archive_session_to_s3` stores `original_sk`,
`import_archive_to_s3` stores `original_session_id` / `original_user_id`
(the latter is `none` when the uploaded payload had no `user_id`, where the
source stores the literal string `'unknown'`). -/
inductive Origin where
  | archivedFrom : SK → Origin
  | importedFrom : String → Option Int → Origin
deriving DecidableEq

/-- The frozen archive payload (`archive_data` / `imported_data`).
Timestamp strings (`archived_at`, `imported_at`) are rendered from the
model clock; their exact format is display-only. -/
structure ArchiveRec where
  user_id : Int
  session_id : String
  model_name : String
  conversation : List Msg
  origin : Origin
  last_message_ts : Nat
  archived_at : String
  imported_at : Option String
  archive_version : String
deriving DecidableEq

/-- One `list_user_archives` summary entry.  `size` stands in for the byte
size of the S3 object and `last_modified` for the object timestamp; both are
display-only. -/
structure ArchiveInfo where
  session_id : String
  s3_key : Int × String
  size : Nat
  last_modified : String
deriving DecidableEq

/-- A parsed uploaded archive payload: each field models presence/absence of
the corresponding JSON key (`none` = key missing, read via `.get`). -/
structure UploadPayload where
  conversation : Option (List Msg)
  model_name : Option String
  session_id : Option String
  user_id : Option Int
  last_message_ts : Option Nat
  archived_at : Option String
deriving DecidableEq

/-- Result of downloading and parsing an uploaded file: either not valid
JSON (`json.loads` raises) or a parsed payload. -/
inductive FileContent where
  | notJson : FileContent
  | json : UploadPayload → FileContent
deriving DecidableEq

/-- A Telegram `document` payload. -/
structure Document where
  file_name : String
  file_id : String
  mime_type : String
deriving DecidableEq

/-- The parts of a Telegram `message` the handler reads.  `chat` is
`message.get("chat", {}).get("id")`, `fromId` is `message.get('from',
{}).get('id')`. -/
structure MessageIn where
  chat : Option Int
  fromId : Option Int
  text : String
  document : Option Document
deriving DecidableEq

/-- One inbound update. -/
structure Update where
  update_id : Int
  message : Option MessageIn
deriving DecidableEq

/-- Outcome of the HTTP call in `call_ollama`. -/
inductive OllamaOutcome where
  | success : String → OllamaOutcome
  | httpError : Nat → OllamaOutcome
  | connError : OllamaOutcome
deriving DecidableEq

/-- Outcome of the `GET /api/tags` probe in the `/status` command. -/
inductive TagsResult where
  | ok : List String → TagsResult
  | httpError : Nat → TagsResult
  | unreachable : TagsResult
deriving DecidableEq

/-- The exception that escaped a store call (`boto3` raising out of an
unguarded `table.put_item` / `table.update_item`). -/
inductive PyErr where
  | dynamoPut : PyErr
  | dynamoUpdate : PyErr
deriving DecidableEq

/-- The external environment: fault injection for every store call the
source guards (or fails to guard), plus the external collaborators
(Telegram, Ollama, file download, polling). -/
structure Env where
  dynamoGetRaises : Bool
  dynamoPutRaises : Bool
  dynamoUpdateRaises : Bool
  dynamoDeleteRaises : Bool
  s3PutRaises : Bool
  s3GetRaises : Bool
  s3ListRaises : Bool
  sendOk : Bool
  sendDocOk : Bool
  ollama : String → List OMsg → OllamaOutcome
  tags : TagsResult
  poll : Int → Option (List Update)
  getFile : String → Option FileContent
  jsonErrText : String
  ollamaUrl : String

/-- The full mutable world: DynamoDB table, S3 bucket (keyed by
`(user_id, session_id)`), logs of outbound Telegram effects, the clock
(`int(time.time())`, constant within one invocation), the uuid source
(`uuid.uuid4()` modelled as a counter), and the environment. -/
structure World where
  table : List Item
  s3 : List ((Int × String) × ArchiveRec)
  sent : List (Int × String)
  edited : List (Int × Nat × String)
  docsSent : List (Int × String × String)
  now : Nat
  nextUuid : Nat
  env : Env

/-- The fresh identifier drawn for counter value `n`. -/
def uuidString (n : Nat) : String :=
  "uuid-" ++ toString n

/-- S3 `get_object` lookup by structured key. -/
def s3find (b : List ((Int × String) × ArchiveRec)) (k : Int × String) :
    Option ArchiveRec :=
  (b.find? (fun p => decide (p.1 = k))).map (fun p => p.2)

/-- S3 `put_object`: overwrite-or-insert by key. -/
def s3put (b : List ((Int × String) × ArchiveRec)) (k : Int × String)
    (r : ArchiveRec) : List ((Int × String) × ArchiveRec) :=
  match b with
  | [] => [(k, r)]
  | x :: xs => if x.1 = k then (k, r) :: xs else x :: s3put xs k r

/-! ### Python string helpers

The handler manipulates message text with `str.strip`, `str.lower`,
`str.split(" ", 1)`, `str.split("@", 1)`, slicing and `int(...)`.  These are
modelled directly on character lists so that proofs and concrete evaluation
stay elementary. -/

/-- Drop leading whitespace characters. -/
def dropLeadingWs : List Char → List Char
  | [] => []
  | c :: cs => if c.isWhitespace then dropLeadingWs cs else c :: cs

/-- `str.strip()` (ASCII whitespace; the wider Unicode set Python strips is
not exercised by the handler). -/
def pyStrip (s : String) : String :=
  String.mk (dropLeadingWs ((dropLeadingWs s.data.reverse).reverse))

/-- `str.lower()` (ASCII). -/
def pyLower (s : String) : String :=
  String.mk (s.data.map Char.toLower)

/-- First component: characters before the first occurrence of `ch`;
second: the rest after it (`none` when `ch` does not occur).  Models
`str.split(ch, 1)`. -/
def breakAtChar (ch : Char) : List Char → List Char × Option (List Char)
  | [] => ([], none)
  | c :: cs =>
    if c = ch then ([], some cs)
    else
      let r := breakAtChar ch cs
      (c :: r.1, r.2)

/-- `s[:n]` on a string. -/
def strTake (n : Nat) (s : String) : String :=
  String.mk (s.data.take n)

/-- `str.endswith(suf)`. -/
def strEndsWith (s suf : String) : Bool :=
  decide (s.data.drop (s.data.length - suf.data.length) = suf.data)

/-- Numeric value of a digit list. -/
def digitsVal (ds : List Char) : Nat :=
  ds.foldl (fun a c => a * 10 + (c.toNat - 48)) 0

/-- `int(s)`: optional surrounding whitespace, optional sign, then decimal
digits; `none` models the `ValueError` the source catches.  (Python also
accepts `_` digit grouping, which no claim exercises.) -/
def pyParseInt (s : String) : Option Int :=
  match (pyStrip s).data with
  | [] => none
  | c :: cs =>
    if c = '-' then
      if cs ≠ [] ∧ cs.all Char.isDigit then some (-(digitsVal cs : Int)) else none
    else if c = '+' then
      if cs ≠ [] ∧ cs.all Char.isDigit then some ((digitsVal cs : Int)) else none
    else if (c :: cs).all Char.isDigit then some ((digitsVal (c :: cs) : Int))
    else none

/-- Python `list[-n:]`. -/
def pyTakeLast (n : Nat) (l : List α) : List α :=
  l.drop (l.length - n)

/-! ### Telegram / Ollama collaborators -/

/-- `send_message`: on success returns the new message id (modelled as the
current length of the send log) and appends `(chat_id, text)` to the log;
on failure (`requests` raising, swallowed by the source) returns `None`. -/
def send_message (chatId : Int) (text : String) (w : World) :
    Option Nat × World :=
  if w.env.sendOk then
    (some w.sent.length, { w with sent := w.sent ++ [(chatId, text)] })
  else (none, w)

/-- `send_message` when the caller ignores the response. -/
def sendM (chatId : Int) (text : String) (w : World) : World :=
  (send_message chatId text w).2

/-- `edit_message` (response ignored by all call sites). -/
def editM (chatId : Int) (messageId : Nat) (text : String) (w : World) :
    World :=
  if w.env.sendOk then
    { w with edited := w.edited ++ [(chatId, messageId, text)] }
  else w

/-- `send_document`: logs `(chat_id, filename, caption)` and reports
success. -/
def send_document (chatId : Int) (filename caption : String) (w : World) :
    Bool × World :=
  if w.env.sendDocOk then
    (true, { w with docsSent := w.docsSent ++ [(chatId, filename, caption)] })
  else (false, w)

/-- The fixed fallback string `call_ollama` returns on a transport error. -/
def ollamaConnErrMsg : String :=
  "Sorry, AI response unavailable (connection error). Use /status to check connection."

/-- `call_ollama`: total by design — HTTP errors and transport errors are
converted to fixed user-safe strings (the `OLLAMA_URL` unset branch is not
modelled: the source gives the variable a non-empty default). -/
def call_ollama (model : String) (messages : List OMsg) (w : World) : String :=
  match w.env.ollama model messages with
  | .success content => content
  | .httpError code =>
      "Sorry, AI response unavailable (error " ++ toString code ++
        "). Use /status to check connection."
  | .connError => ollamaConnErrMsg

/-! ### Offset store -/

/-- `get_last_offset`: read the offset row, defaulting to `0` when the row
is absent or the read raises (the source swallows the exception). -/
def get_last_offset (w : World) : Int :=
  if w.env.dynamoGetRaises then 0
  else
    match getItem w.table (0, .lastUpdateId) with
    | some (.offsetRow off _) => off
    | _ => 0

/-- `save_offset`: write the offset row; a raising put is swallowed. -/
def save_offset (updateId : Int) (w : World) : World :=
  if w.env.dynamoPutRaises then w
  else { w with table := putItem w.table (.offsetRow updateId w.now) }

/-! ### Session manager -/

/-- `get_user_items`: query all items in the user's partition; a raising
query is swallowed and yields `[]`. -/
def get_user_items (uid : Int) (w : World) : List Item :=
  if w.env.dynamoGetRaises then [] else queryPk w.table uid

/-- `get_active_session`: first item of the user with `is_active == 1`
(only session rows can match, other rows read the attribute as `0`). -/
def get_active_session (uid : Int) (w : World) : Option Session :=
  match (get_user_items uid w).find? (fun it => decide (itemIsActive it = 1)) with
  | some (.sess s) => some s
  | _ => none

/-- The deactivation loop of `create_session`: for every snapshot item with
`is_active == 1` and a different sort key, `SET is_active = 0`.  An
unguarded `update_item` raise aborts the loop mid-way. -/
def deactivateLoop (uid : Int) (sk : SK) (items : List Item) (w : World) :
    Except PyErr Unit × World :=
  match items with
  | [] => (.ok (), w)
  | it :: rest =>
    if itemIsActive it = 1 ∧ (itemKey it).2 ≠ sk then
      if w.env.dynamoUpdateRaises then (.error .dynamoUpdate, w)
      else
        deactivateLoop uid sk rest
          { w with table := updateIsActive w.table (uid, (itemKey it).2) 0 }
    else deactivateLoop uid sk rest w

/-- `create_session`: draw a fresh id, deactivate every other active item of
the user, then insert the new active session. -/
def create_session (uid : Int) (model : String) (w : World) :
    Except PyErr Session × World :=
  let sid := uuidString w.nextUuid
  let w0 := { w with nextUuid := w.nextUuid + 1 }
  let sk : SK := .modelSession model sid
  let item : Session :=
    { pk := uid, sk := sk, model_name := model, session_id := sid,
      is_active := 1, last_message_ts := w0.now, conversation := [],
      user_id := uid, s3_path := "", pending_request_ts := 0 }
  let existing := get_user_items uid w0
  match deactivateLoop uid sk existing w0 with
  | (.error e, w1) => (.error e, w1)
  | (.ok _, w1) =>
    if w1.env.dynamoPutRaises then (.error .dynamoPut, w1)
    else (.ok item, { w1 with table := putItem w1.table (.sess item) })

/-- `get_current_session`: the active session, lazily created with the
default model `"tinyllama"`. -/
def get_current_session (uid : Int) (w : World) :
    Except PyErr Session × World :=
  match get_active_session uid w with
  | some s => (.ok s, w)
  | none => create_session uid "tinyllama" w

/-- `append_to_conversation`: append the message, bump `last_message_ts`,
persist the whole session row (an unguarded `put_item`). -/
def append_to_conversation (s : Session) (m : Msg) (w : World) :
    Except PyErr Session × World :=
  let s1 := { s with conversation := s.conversation ++ [m],
                     last_message_ts := w.now }
  if w.env.dynamoPutRaises then (.error .dynamoPut, w)
  else (.ok s1, { w with table := putItem w.table (.sess s1) })

/-- The user's session list as assembled by several commands:
`[it for it in get_user_items(uid) if it['sk'].startswith('MODEL#')]`.
Only session rows can carry a `MODEL#` sort key. -/
def sessionsOf (uid : Int) (w : World) : List Session :=
  (get_user_items uid w).filterMap (fun it =>
    match it with
    | .sess s => if isModelSK s.sk then some s else none
    | _ => none)

/-! ### Archive manager -/

/-- `get_archive_s3_key`: the structured form of
`archives/{user_id}/{session_id}.json`. -/
def get_archive_s3_key (uid : Int) (sid : String) : Int × String :=
  (uid, sid)

/-- Timestamp string for `datetime.utcnow().isoformat() + 'Z'` (rendering
is display-only). -/
def isoNow (w : World) : String :=
  toString w.now ++ "Z"

/-- `archive_session_to_s3`: refuse a session without `session_id`, build
the frozen record, write it to S3; a raising put is swallowed and reported
as `None`. -/
def archive_session_to_s3 (uid : Int) (s : Session) (w : World) :
    Option (Int × String) × World :=
  if s.session_id = "" then (none, w)
  else
    let ar : ArchiveRec :=
      { user_id := uid, session_id := s.session_id,
        model_name := s.model_name, conversation := s.conversation,
        origin := .archivedFrom s.sk, last_message_ts := s.last_message_ts,
        archived_at := isoNow w, imported_at := none,
        archive_version := "1.0" }
    let k := get_archive_s3_key uid s.session_id
    if w.env.s3PutRaises then (none, w)
    else (some k, { w with s3 := s3put w.s3 k ar })

/-- `delete_session_from_dynamodb`: a raising delete is swallowed and
reported as `False`. -/
def delete_session_from_dynamodb (uid : Int) (sk : SK) (w : World) :
    Bool × World :=
  if w.env.dynamoDeleteRaises then (false, w)
  else (true, { w with table := deleteItem w.table (uid, sk) })

/-- `list_user_archives`: list the user's prefix; a raising listing is
swallowed and yields `[]`. -/
def list_user_archives (uid : Int) (w : World) : List ArchiveInfo :=
  if w.env.s3ListRaises then []
  else
    (w.s3.filter (fun p => decide (p.1.1 = uid))).map (fun p =>
      { session_id := p.1.2, s3_key := p.1, size := p.2.conversation.length,
        last_modified := p.2.archived_at })

/-- `get_archive_from_s3`: `NoSuchKey` and any other failure both surface
as `None`. -/
def get_archive_from_s3 (uid : Int) (sid : String) (w : World) :
    Option ArchiveRec :=
  if w.env.s3GetRaises then none
  else s3find w.s3 (get_archive_s3_key uid sid)

/-- `import_archive_to_s3`: tag the payload with provenance under a freshly
drawn session id and write it as a new archive entry; a raising put is
swallowed and reported as `None`. -/
def import_archive_to_s3 (uid : Int) (p : UploadPayload) (w : World) :
    Option String × World :=
  let newSid := uuidString w.nextUuid
  let w0 := { w with nextUuid := w.nextUuid + 1 }
  let ar : ArchiveRec :=
    { user_id := uid, session_id := newSid,
      model_name := p.model_name.getD "imported",
      conversation := p.conversation.getD [],
      origin := .importedFrom (p.session_id.getD "unknown") p.user_id,
      last_message_ts := p.last_message_ts.getD 0,
      archived_at := p.archived_at.getD (isoNow w0),
      imported_at := some (isoNow w0), archive_version := "1.0" }
  let k := get_archive_s3_key uid newSid
  if w0.env.s3PutRaises then (none, w0)
  else (some newSid, { w0 with s3 := s3put w0.s3 k ar })

/-! ### Command handlers -/

/-- `/start` and `/hello`. -/
def cmd_start_hello (chatId uid : Int) (w : World) :
    Except PyErr String × World :=
  match get_current_session uid w with
  | (.error e, w1) => (.error e, w1)
  | (.ok s, w1) =>
    (.ok "start_or_hello",
      sendM chatId
        ("Hello! Your current model is " ++ s.model_name ++
          ". Chat away or use /help.") w1)

/-- The `/help` reply text. -/
def helpText : String :=
  "Commands:\n/start or /hello - Greeting and session init\n/newsession - Start a new chat session\n/listsessions - List your sessions\n/switch <number> - Switch to a session (e.g., /switch 1)\n/history - Show recent messages in current session\n/status - Check system and Ollama status\n/echo <text> - Echo back text\n\nArchive Commands:\n/archive - List sessions to archive\n/archive <number> - Archive a specific session to S3\n/listarchives - List your archived sessions\n/export <number> - Export an archive as a file\n(Send a JSON file to import an archive)\n\nSend any text message to chat with the AI model."

/-- The Ollama part of the `/status` reply. -/
def statusLine (w : World) : String :=
  match w.env.tags with
  | .ok ms =>
      "connected, models: " ++
        (if ms = [] then "none loaded" else String.intercalate ", " ms)
  | .httpError n => "error (HTTP " ++ toString n ++ ")"
  | .unreachable => "unreachable (instance may be stopped)"

/-- `/newsession`. -/
def cmd_newsession (chatId uid : Int) (w : World) :
    Except PyErr String × World :=
  match create_session uid "tinyllama" w with
  | (.error e, w1) => (.error e, w1)
  | (.ok s, w1) =>
    (.ok "newsession",
      sendM chatId
        ("New session created with model \x27" ++ s.model_name ++
          "\x27 (ID: " ++ strTake 8 s.session_id ++ ").") w1)

/-- `time.strftime` rendering of a timestamp (display-only). -/
def fmtTs (n : Nat) : String :=
  toString n

/-- One `/listsessions` line. -/
def sessionLine (i : Nat) (s : Session) : String :=
  toString (i + 1) ++ ". " ++ s.model_name ++ " (" ++
    strTake 8 s.session_id ++ ")" ++
    (if s.is_active = 1 then " (active)" else "") ++ " - " ++
    toString s.conversation.length ++ " msgs - Last: " ++
    fmtTs s.last_message_ts ++ "\n"

/-- `/listsessions`. -/
def cmd_listsessions (chatId uid : Int) (w : World) :
    Except PyErr String × World :=
  let sessions := sessionsOf uid w
  if sessions = [] then
    (.ok "no_sessions",
      sendM chatId "No sessions yet. Start chatting or use /newsession." w)
  else
    (.ok "listsessions",
      sendM chatId
        ("Your sessions:\n" ++
          String.join (sessions.enum.map (fun p => sessionLine p.1 p.2))) w)

/-- The activation loop of `/switch`: every session in the filtered list
gets `is_active` set to `1` for the target sort key and `0` otherwise.  An
unguarded `update_item` raise (only `ValueError` is caught in the source)
aborts the loop mid-way. -/
def setActiveLoop (uid : Int) (targetSk : SK) (ss : List Session)
    (w : World) : Except PyErr Unit × World :=
  match ss with
  | [] => (.ok (), w)
  | s :: rest =>
    let v : Nat := if s.sk = targetSk then 1 else 0
    if w.env.dynamoUpdateRaises then (.error .dynamoUpdate, w)
    else
      setActiveLoop uid targetSk rest
        { w with table := updateIsActive w.table (uid, s.sk) v }

/-- `/switch <payload>`.  The source guard `0 <= idx < len(sessions)` is
split into a sign test and an in-range lookup. -/
def cmd_switch (payload : String) (chatId uid : Int) (w : World) :
    Except PyErr String × World :=
  match pyParseInt payload with
  | none =>
    (.ok "invalid_switch",
      sendM chatId "Usage: /switch <number> (e.g., /switch 1)" w)
  | some n =>
    let idx := n - 1
    let sessions := sessionsOf uid w
    if idx < 0 then
      (.ok "invalid_switch",
        sendM chatId "Invalid session number. Use /listsessions." w)
    else
      match sessions.get? idx.toNat with
      | none =>
        (.ok "invalid_switch",
          sendM chatId "Invalid session number. Use /listsessions." w)
      | some target =>
        match setActiveLoop uid target.sk sessions w with
        | (.error e, w1) => (.error e, w1)
        | (.ok _, w1) =>
          (.ok "switch",
            sendM chatId
              ("Switched to session " ++ toString (idx + 1) ++
                " (model: " ++ target.model_name ++ ").") w1)

/-- `str.capitalize()`. -/
def pyCapitalize (s : String) : String :=
  match s.data with
  | [] => ""
  | c :: cs => String.mk (c.toUpper :: cs.map Char.toLower)

/-- One `/history` line. -/
def historyLine (m : Msg) : String :=
  pyCapitalize m.role ++ " (" ++ fmtTs m.ts ++ "): " ++
    (if m.content.data.length > 100 then strTake 100 m.content ++ "..."
     else m.content) ++ "\n"

/-- `/history`.  (The `isinstance(conversation, str)` repair branch of the
source is unreachable here: the model stores conversations as lists.) -/
def cmd_history (chatId uid : Int) (w : World) :
    Except PyErr String × World :=
  match get_current_session uid w with
  | (.error e, w1) => (.error e, w1)
  | (.ok s, w1) =>
    let conv := pyTakeLast 5 s.conversation
    if conv = [] then
      (.ok "no_history", sendM chatId "No messages in this session yet." w1)
    else
      (.ok "history",
        sendM chatId
          ("Recent conversation:\n" ++ String.join (conv.map historyLine)) w1)

/-- One line of the `/archive` listing. -/
def archiveLine (i : Nat) (s : Session) : String :=
  toString (i + 1) ++ ". " ++ s.model_name ++ " (" ++
    strTake 8 s.session_id ++ ")" ++
    (if s.is_active = 1 then " (active)" else "") ++ " - " ++
    toString s.conversation.length ++ " msgs - " ++
    fmtTs s.last_message_ts ++ "\n"

/-- The full-success reply of `/archive <n>`. -/
def archiveSuccessMsg (s : Session) : String :=
  "Session archived successfully!\n- Model: " ++ s.model_name ++
    "\n- Messages: " ++ toString s.conversation.length ++
    "\n- Archive ID: " ++ strTake 8 s.session_id ++
    "\n\nUse /listarchives to see your archives."

/-- `/archive [n]`. -/
def cmd_archive (payload : String) (chatId uid : Int) (w : World) :
    Except PyErr String × World :=
  let sessions := sessionsOf uid w
  if sessions = [] then
    (.ok "no_sessions_to_archive",
      sendM chatId "No sessions to archive. Start chatting first!" w)
  else if pyStrip payload = "" then
    (.ok "list_for_archive",
      sendM chatId
        ("Sessions available to archive:\n" ++
          String.join (sessions.enum.map (fun p => archiveLine p.1 p.2)) ++
          "\nUse /archive <number> to archive a session (e.g., /archive 1)") w)
  else
    match pyParseInt payload with
    | none =>
      (.ok "invalid_archive_format",
        sendM chatId "Usage: /archive <number> (e.g., /archive 1)" w)
    | some n =>
      let idx := n - 1
      if idx < 0 then
        (.ok "invalid_archive_number",
          sendM chatId
            "Invalid session number. Use /archive to see available sessions." w)
      else
        match sessions.get? idx.toNat with
        | none =>
          (.ok "invalid_archive_number",
            sendM chatId
              "Invalid session number. Use /archive to see available sessions." w)
        | some s =>
          match archive_session_to_s3 uid s w with
          | (none, w1) =>
            (.ok "archive_s3_error",
              sendM chatId
                "Failed to archive session to S3. Please try again." w1)
          | (some _, w1) =>
            match delete_session_from_dynamodb uid s.sk w1 with
            | (true, w2) =>
              (.ok "archived", sendM chatId (archiveSuccessMsg s) w2)
            | (false, w2) =>
              (.ok "archive_cleanup_error",
                sendM chatId
                  "Session saved to S3 but failed to remove from active storage."
                  w2)

/-- One `/listarchives` line (the kilobyte rendering of the size is
display-only). -/
def archiveInfoLine (i : Nat) (a : ArchiveInfo) : String :=
  toString (i + 1) ++ ". Archive " ++ strTake 8 a.session_id ++ " - " ++
    toString a.size ++ "KB - " ++ strTake 10 a.last_modified ++ "\n"

/-- `/listarchives`. -/
def cmd_listarchives (chatId uid : Int) (w : World) :
    Except PyErr String × World :=
  let archives := list_user_archives uid w
  if archives = [] then
    (.ok "no_archives",
      sendM chatId
        "No archived sessions yet. Use /archive to archive a session." w)
  else
    (.ok "listarchives",
      sendM chatId
        ("Your archived sessions:\n" ++
          String.join (archives.enum.map (fun p => archiveInfoLine p.1 p.2)) ++
          "\nUse /export <number> to download an archive.") w)

/-- `/export <n>`. -/
def cmd_export (payload : String) (chatId uid : Int) (w : World) :
    Except PyErr String × World :=
  if pyStrip payload = "" then
    (.ok "export_no_number",
      sendM chatId
        "Usage: /export <number> (e.g., /export 1)\nUse /listarchives to see available archives."
        w)
  else
    let archives := list_user_archives uid w
    if archives = [] then
      (.ok "no_archives_to_export",
        sendM chatId "No archived sessions to export. Use /archive first." w)
    else
      match pyParseInt payload with
      | none =>
        (.ok "invalid_export_format",
          sendM chatId "Usage: /export <number> (e.g., /export 1)" w)
      | some n =>
        let idx := n - 1
        if idx < 0 then
          (.ok "invalid_export_number",
            sendM chatId
              "Invalid archive number. Use /listarchives to see available archives."
              w)
        else
          match archives.get? idx.toNat with
          | none =>
            (.ok "invalid_export_number",
              sendM chatId
                "Invalid archive number. Use /listarchives to see available archives."
                w)
          | some info =>
            match get_archive_from_s3 uid info.session_id w with
            | none =>
              (.ok "export_retrieve_error",
                sendM chatId "Failed to retrieve archive. Please try again." w)
            | some ar =>
              let filename :=
                "archive_" ++ strTake 8 info.session_id ++ "_" ++
                  ar.model_name ++ ".json"
              let caption :=
                "Archive: " ++ ar.model_name ++ " - " ++
                  toString ar.conversation.length ++ " messages"
              match send_document chatId filename caption w with
              | (true, w1) =>
                (.ok "exported",
                  sendM chatId
                    "Archive exported! You can send this file back to import it later."
                    w1)
              | (false, w1) =>
                (.ok "export_send_error",
                  sendM chatId "Failed to send archive file. Please try again." w1)

/-- `handle_command`: dispatch in source order; an unmatched command yields
the fixed unknown-command reply. -/
def handle_command (cmd payload : String) (chatId uid : Int)
    (updateId : Int) (w : World) : Except PyErr String × World :=
  if cmd = "/start" ∨ cmd = "/hello" then cmd_start_hello chatId uid w
  else if cmd = "/help" then (.ok "help", sendM chatId helpText w)
  else if cmd = "/status" then
    (.ok "status",
      sendM chatId
        ("Bot: running on AWS\nOllama: " ++ statusLine w ++ "\nEndpoint: " ++
          w.env.ollamaUrl) w)
  else if cmd = "/newsession" then cmd_newsession chatId uid w
  else if cmd = "/listsessions" then cmd_listsessions chatId uid w
  else if cmd = "/switch" then cmd_switch payload chatId uid w
  else if cmd = "/history" then cmd_history chatId uid w
  else if cmd = "/echo" then
    (.ok "echo",
      sendM chatId
        (if pyStrip payload ≠ "" then pyStrip payload else "Usage: /echo <text>")
        w)
  else if cmd = "/archive" then cmd_archive payload chatId uid w
  else if cmd = "/listarchives" then cmd_listarchives chatId uid w
  else if cmd = "/export" then cmd_export payload chatId uid w
  else
    (.ok "unknown",
      sendM chatId "Unknown command. Send /help for available commands." w)

/-- The reply sent when an uploaded archive payload lacks `conversation`. -/
def invalidFormatMsg : String :=
  "Invalid archive format. Missing \x27conversation\x27 field.\nUse /export to get a valid archive format."

/-- `handle_document`: archive import.  Touches only S3 and the Telegram
send log, never the session table. -/
def handle_document (doc : Document) (chatId uid : Int) (w : World) :
    Except PyErr String × World :=
  if ¬(strEndsWith doc.file_name ".json" = true ∨
        doc.mime_type = "application/json") then
    (.ok "invalid_file_type",
      sendM chatId
        "Please send a JSON file to import an archive.\nExport archives using /export to get the correct format."
        w)
  else
    match w.env.getFile doc.file_id with
    | none =>
      (.ok "download_error",
        sendM chatId "Failed to download file. Please try again." w)
    | some .notJson =>
      (.ok "json_parse_error",
        sendM chatId
          ("Invalid JSON file. Please send a valid archive export.\nError: " ++
            w.env.jsonErrText) w)
    | some (.json p) =>
      if p.conversation = none then
        (.ok "invalid_archive_format", sendM chatId invalidFormatMsg w)
      else
        match import_archive_to_s3 uid p w with
        | (none, w1) =>
          (.ok "import_error",
            sendM chatId "Failed to import archive. Please try again." w1)
        | (some newSid, w1) =>
          (.ok "imported",
            sendM chatId
              ("Archive imported successfully!\n- Original model: " ++
                p.model_name.getD "unknown" ++ "\n- Messages: " ++
                toString (p.conversation.getD []).length ++
                "\n- New archive ID: " ++ strTake 8 newSid ++
                "\n\nUse /listarchives to see your archives.") w1)

/-- The busy reply of the pending-request guard. -/
def busyMsg : String :=
  "Please wait, still generating a response to your previous message..."

/-- The non-command chat path of `handle_message`: pending-request guard,
user append, pending mark, placeholder send, completion call, pending
clear, assistant append, placeholder edit or fresh send. -/
def chat_pipeline (text : String) (chatId uid : Int) (w : World) :
    Except PyErr String × World :=
  match get_current_session uid w with
  | (.error e, w1) => (.error e, w1)
  | (.ok session, w1) =>
    let now := w1.now
    let pending := session.pending_request_ts
    -- `if pending_since and (now - pending_since) < 55`; on true Nat
    -- subtraction this agrees with Python's signed subtraction: a pending
    -- timestamp in the future truncates to 0 and still reads as busy
    if pending ≠ 0 ∧ now - pending < 55 then
      (.ok "rate_limited", sendM chatId busyMsg w1)
    else
      match append_to_conversation session
          { role := "user", content := text, ts := now } w1 with
      | (.error e, w2) => (.error e, w2)
      | (.ok s1, w2) =>
        let s2 := { s1 with pending_request_ts := now }
        if w2.env.dynamoPutRaises then (.error .dynamoPut, w2)
        else
          let w3 := { w2 with table := putItem w2.table (.sess s2) }
          let thinking := send_message chatId "Thinking..." w3
          -- every stored entry carries `role` and `content`, so the
          -- source's key-presence filter keeps all of them
          let messages :=
            pyTakeLast 10 (s2.conversation.map (fun m =>
              ({ role := m.role, content := m.content } : OMsg)))
          let aiResponse := call_ollama s2.model_name messages thinking.2
          let s3 := { s2 with pending_request_ts := 0 }
          match append_to_conversation s3
              { role := "assistant", content := aiResponse,
                ts := thinking.2.now } thinking.2 with
          | (.error e, w5) => (.error e, w5)
          | (.ok _, w5) =>
            match thinking.1 with
            | some mid => (.ok "ai_response", editM chatId mid aiResponse w5)
            | none => (.ok "ai_response", sendM chatId aiResponse w5)

/-- `handle_message`: documents first, then empty/over-length checks, then
command dispatch or the chat pipeline. -/
def handle_message (text : String) (chatId uid : Int) (updateId : Int)
    (doc : Option Document) (w : World) : Except PyErr String × World :=
  match doc with
  | some d => handle_document d chatId uid w
  | none =>
    if text = "" then (.ok "no_text", sendM chatId "No text received." w)
    else
      let t := pyStrip text
      if t = "" then (.ok "no_text", sendM chatId "No text received." w)
      else if t.data.length > 4000 then
        (.ok "message_too_long",
          sendM chatId
            ("Message too long (" ++ toString t.data.length ++
              " chars). Max is 4000.") w)
      else if t.data.head? = some '/' then
        let parts := breakAtChar ' ' t.data
        let cmd := pyLower (String.mk (breakAtChar '@' parts.1).1)
        let payload := String.mk (parts.2.getD [])
        handle_command cmd payload chatId uid updateId w
      else chat_pipeline t chatId uid w

/-- Result dictionary of `process_telegram_update`. -/
inductive ProcResult where
  | notProcessed : String → ProcResult
  | processed : Int → String → ProcResult
deriving DecidableEq

/-- `process_telegram_update`: skip updates without message or chat id,
then the dedup gate (marker checked and written before any business logic;
a raising check or write is swallowed and the update is processed anyway),
then `handle_message`. -/
def process_telegram_update (u : Update) (w : World) :
    Except PyErr ProcResult × World :=
  match u.message with
  | none => (.ok (.notProcessed "no_message"), w)
  | some m =>
    match m.chat with
    | none => (.ok (.notProcessed "no_chat_id"), w)
    | some chatId =>
      let uid := m.fromId.getD chatId
      if w.env.dynamoGetRaises then
        -- dedup check raised: swallowed, process anyway
        match handle_message m.text chatId uid u.update_id m.document w with
        | (.error e, w1) => (.error e, w1)
        | (.ok h, w1) => (.ok (.processed u.update_id h), w1)
      else
        match getItem w.table (0, .updateMark u.update_id) with
        | some _ => (.ok (.notProcessed "duplicate"), w)
        | none =>
          let w0 :=
            if w.env.dynamoPutRaises then w
            else
              { w with table :=
                  putItem w.table (.dedupRow u.update_id w.now) }
          match handle_message m.text chatId uid u.update_id m.document w0 with
          | (.error e, w1) => (.error e, w1)
          | (.ok h, w1) => (.ok (.processed u.update_id h), w1)

/-- Return value of the polling entry point. -/
inductive LambdaResult where
  | firstRun : ProcResult → Nat → LambdaResult
  | firstRunCleared : Nat → LambdaResult
  | pollError : LambdaResult
  | noMessages : LambdaResult
  | batch : List ProcResult → Int → Int → LambdaResult
  | crashed : PyErr → LambdaResult
deriving DecidableEq

/-- The per-batch loop of `lambda_handler` (polling mode): skip already
acknowledged ids, process the rest, track the maximum id seen.  An
exception escaping `process_telegram_update` aborts the loop — there is no
per-update handler in the source. -/
def processBatch (us : List Update) (lastOffset : Int)
    (acc : List ProcResult) (maxId : Int) (w : World) :
    Except PyErr (List ProcResult × Int) × World :=
  match us with
  | [] => (.ok (acc.reverse, maxId), w)
  | u :: rest =>
    if lastOffset > 0 ∧ u.update_id < lastOffset then
      processBatch rest lastOffset acc (max maxId u.update_id) w
    else
      match process_telegram_update u w with
      | (.error e, w1) => (.error e, w1)
      | (.ok r, w1) =>
        let acc' :=
          match r with
          | .processed _ _ => r :: acc
          | .notProcessed _ => acc
        processBatch rest lastOffset acc' (max maxId u.update_id) w1

/-- The regular polling flow (lines 917–962): poll, loop, acknowledge. -/
def poll_flow (lastOffset : Int) (w : World) : LambdaResult × World :=
  match w.env.poll lastOffset with
  | none => (.pollError, w)
  | some us =>
    if us.isEmpty then (.noMessages, w)
    else
      match processBatch us lastOffset [] lastOffset w with
      | (.error e, w1) => (.crashed e, w1)
      | (.ok (rs, maxId), w1) =>
        let w2 := if maxId ≥ lastOffset then save_offset (maxId + 1) w1 else w1
        (.batch rs lastOffset (maxId + 1), w2)

/-- `lambda_handler` in polling mode.  On the first run (stored offset 0)
only the newest pending update is processed and the offset jumps past the
backlog; when the initial poll fails the source falls through to the
regular flow.  An exception escaping update processing is caught only by
the outermost handler (`statusCode 500`), modelled as `crashed`. -/
def lambda_handler_polling (w : World) : LambdaResult × World :=
  let lastOffset := get_last_offset w
  if lastOffset = 0 then
    match w.env.poll 0 with
    | some us =>
      match us.getLast? with
      | some latest =>
        match process_telegram_update latest w with
        | (.error e, w1) => (.crashed e, w1)
        | (.ok r, w1) =>
          (.firstRun r (us.length - 1),
            save_offset (latest.update_id + 1) w1)
      | none =>
        -- with an empty batch the source's conditional saves offset 1
        (.firstRunCleared us.length, save_offset 1 w)
    | none => poll_flow lastOffset w
  else poll_flow lastOffset w

/-! ### Concrete environments for evaluation -/

/-- A fully healthy environment: no store faults, Telegram reachable,
Ollama answering. -/
def envOk : Env :=
  { dynamoGetRaises := false, dynamoPutRaises := false,
    dynamoUpdateRaises := false, dynamoDeleteRaises := false,
    s3PutRaises := false, s3GetRaises := false, s3ListRaises := false,
    sendOk := true, sendDocOk := true,
    ollama := fun _ _ => .success "ok", tags := .ok [],
    poll := fun _ => some [], getFile := fun _ => none,
    jsonErrText := "", ollamaUrl := "http://localhost:11434" }

/-- The empty world over `envOk`. -/
def baseWorld : World :=
  { table := [], s3 := [], sent := [], edited := [], docsSent := [],
    now := 0, nextUuid := 0, env := envOk }

/-! ### Basic lemmas about the effect primitives -/

theorem sendM_table (c : Int) (t : String) (w : World) :
    (sendM c t w).table = w.table := by
  unfold sendM send_message; split <;> rfl

theorem sendM_env (c : Int) (t : String) (w : World) :
    (sendM c t w).env = w.env := by
  unfold sendM send_message; split <;> rfl

theorem sendM_s3 (c : Int) (t : String) (w : World) :
    (sendM c t w).s3 = w.s3 := by
  unfold sendM send_message; split <;> rfl

theorem sendM_of_sendOk (c : Int) (t : String) (w : World)
    (h : w.env.sendOk = true) :
    sendM c t w = { w with sent := w.sent ++ [(c, t)] } := by
  unfold sendM send_message; rw [h]; simp

/-! ### The pending-request guard (claims about `handle_message`) -/

/-- With a non-empty, non-command, in-length text and no document,
`handle_message` reduces to the chat pipeline on the stripped text. -/
theorem handle_message_chat_path (text : String) (chatId uid updId : Int)
    (w : World)
    (ht1 : pyStrip text ≠ "")
    (ht2 : (pyStrip text).data.head? ≠ some '/')
    (ht3 : (pyStrip text).data.length ≤ 4000) :
    handle_message text chatId uid updId none w =
      chat_pipeline (pyStrip text) chatId uid w := by
  have htext : text ≠ "" := by
    intro h
    apply ht1
    rw [h]
    rfl
  unfold handle_message
  rw [if_neg htext, if_neg ht1, if_neg (by omega), if_neg ht2]

/-- The busy branch of the guard: nonzero fresh pending timestamp means the
message is rejected with the busy reply and the world is otherwise
untouched. -/
theorem chat_pipeline_busy (t : String) (chatId uid : Int) (w : World)
    (s : Session)
    (hact : get_active_session uid w = some s)
    (hp : s.pending_request_ts ≠ 0)
    (hfresh : w.now - s.pending_request_ts < 55) :
    chat_pipeline t chatId uid w = (.ok "rate_limited", sendM chatId busyMsg w) := by
  unfold chat_pipeline get_current_session
  rw [hact]
  simp only [if_pos (And.intro hp hfresh)]

/-- The accept branch of the guard: an idle or stale pending timestamp lets
the message through to the completion pipeline, which always finishes with
`ai_response` when the session-store writes succeed. -/
theorem chat_pipeline_accept (t : String) (chatId uid : Int) (w : World)
    (s : Session)
    (hact : get_active_session uid w = some s)
    (hguard : ¬(s.pending_request_ts ≠ 0 ∧ w.now - s.pending_request_ts < 55))
    (hput : w.env.dynamoPutRaises = false) :
    (chat_pipeline t chatId uid w).1 = .ok "ai_response" := by
  cases hs : w.env.sendOk with
  | true =>
    simp [chat_pipeline, get_current_session, hact, hguard,
      append_to_conversation, send_message, hput, hs]
  | false =>
    simp [chat_pipeline, get_current_session, hact, hguard,
      append_to_conversation, send_message, hput, hs]

/-- **C3.** For every non-command chat message on a session with
`pending_request_ts = t ≠ 0`, the message is rejected with a busy reply
whenever `now - t` is strictly inside the 55-second guard window, and is
accepted and processed to an `ai_response` when `now - t` is 55 seconds or
more; a session with `pending_request_ts = 0` is always accepted. -/
theorem claim_C3_pending_guard_boundary
    (text : String) (chatId uid updId : Int) (w : World) (s : Session)
    (ht1 : pyStrip text ≠ "")
    (ht2 : (pyStrip text).data.head? ≠ some '/')
    (ht3 : (pyStrip text).data.length ≤ 4000)
    (hact : get_active_session uid w = some s)
    (hsend : w.env.sendOk = true)
    (hput : w.env.dynamoPutRaises = false) :
    (s.pending_request_ts ≠ 0 → w.now - s.pending_request_ts < 55 →
      handle_message text chatId uid updId none w =
        (.ok "rate_limited", { w with sent := w.sent ++ [(chatId, busyMsg)] })) ∧
    ((s.pending_request_ts = 0 ∨ 55 ≤ w.now - s.pending_request_ts) →
      (handle_message text chatId uid updId none w).1 = .ok "ai_response") := by
  constructor
  · intro hp hfresh
    rw [handle_message_chat_path text chatId uid updId w ht1 ht2 ht3,
      chat_pipeline_busy _ chatId uid w s hact hp hfresh,
      sendM_of_sendOk chatId busyMsg w hsend]
  · intro h
    rw [handle_message_chat_path text chatId uid updId w ht1 ht2 ht3]
    apply chat_pipeline_accept _ chatId uid w s hact _ hput
    rcases h with h | h
    · intro hc
      exact hc.1 h
    · intro hc
      omega

/-- The session used by the concrete guard evaluations. -/
def guardSession (pending : Nat) : Session :=
  { pk := 7, sk := .modelSession "tinyllama" "uuid-a",
    model_name := "tinyllama", session_id := "uuid-a", is_active := 1,
    last_message_ts := 0, conversation := [], user_id := 7, s3_path := "",
    pending_request_ts := pending }

/-- A world holding exactly that session, at clock `nowT`. -/
def guardWorld (pending nowT : Nat) : World :=
  { baseWorld with table := [.sess (guardSession pending)], now := nowT }

/-- Witness for C3: with `pending_request_ts = 100`, a chat message at
`now = 154` (54 seconds later) is rejected as busy, one at `now = 156`
(56 seconds later) is accepted, and an idle session is accepted. -/
theorem claim_C3_pending_guard_boundary_witness :
    handle_message "hi" 1 7 0 none (guardWorld 100 154) =
      (.ok "rate_limited",
        { guardWorld 100 154 with
            sent := (guardWorld 100 154).sent ++ [(1, busyMsg)] }) ∧
    (handle_message "hi" 1 7 0 none (guardWorld 100 156)).1 =
      .ok "ai_response" ∧
    (handle_message "hi" 1 7 0 none (guardWorld 0 200)).1 =
      .ok "ai_response" := by
  refine ⟨?_, ?_, ?_⟩
  · exact (claim_C3_pending_guard_boundary "hi" 1 7 0 (guardWorld 100 154)
      (guardSession 100) (by decide) (by decide) (by decide) (by decide)
      (by decide) (by decide)).1 (by decide) (by decide)
  · exact (claim_C3_pending_guard_boundary "hi" 1 7 0 (guardWorld 100 156)
      (guardSession 100) (by decide) (by decide) (by decide) (by decide)
      (by decide) (by decide)).2 (Or.inr (by decide))
  · exact (claim_C3_pending_guard_boundary "hi" 1 7 0 (guardWorld 0 200)
      (guardSession 0) (by decide) (by decide) (by decide) (by decide)
      (by decide) (by decide)).2 (Or.inl rfl)

/-- **C10.** A non-command chat message rejected by the pending-request
guard leaves the session store (and every other store) entirely unchanged:
the rejected message is not appended, no timestamps move, and the only
observable effect is the busy reply. -/
theorem claim_C10_busy_rejection_frame
    (text : String) (chatId uid updId : Int) (w : World) (s : Session)
    (ht1 : pyStrip text ≠ "")
    (ht2 : (pyStrip text).data.head? ≠ some '/')
    (ht3 : (pyStrip text).data.length ≤ 4000)
    (hact : get_active_session uid w = some s)
    (hsend : w.env.sendOk = true)
    (hp : s.pending_request_ts ≠ 0)
    (hfresh : w.now - s.pending_request_ts < 55) :
    (handle_message text chatId uid updId none w).1 = .ok "rate_limited" ∧
    ((handle_message text chatId uid updId none w).2).table = w.table ∧
    ((handle_message text chatId uid updId none w).2).s3 = w.s3 ∧
    ((handle_message text chatId uid updId none w).2).edited = w.edited ∧
    ((handle_message text chatId uid updId none w).2).docsSent = w.docsSent ∧
    ((handle_message text chatId uid updId none w).2).nextUuid = w.nextUuid ∧
    ((handle_message text chatId uid updId none w).2).sent =
      w.sent ++ [(chatId, busyMsg)] := by
  rw [handle_message_chat_path text chatId uid updId w ht1 ht2 ht3,
    chat_pipeline_busy _ chatId uid w s hact hp hfresh,
    sendM_of_sendOk chatId busyMsg w hsend]
  exact ⟨rfl, rfl, rfl, rfl, rfl, rfl, rfl⟩

/-- Witness for C10: the 30-seconds-in rejection leaves the concrete world
unchanged except for the busy reply. -/
theorem claim_C10_busy_rejection_frame_witness :
    (handle_message "hi" 1 7 0 none (guardWorld 100 130)).1 =
      .ok "rate_limited" ∧
    ((handle_message "hi" 1 7 0 none (guardWorld 100 130)).2).table =
      (guardWorld 100 130).table ∧
    ((handle_message "hi" 1 7 0 none (guardWorld 100 130)).2).s3 =
      (guardWorld 100 130).s3 ∧
    ((handle_message "hi" 1 7 0 none (guardWorld 100 130)).2).edited =
      (guardWorld 100 130).edited ∧
    ((handle_message "hi" 1 7 0 none (guardWorld 100 130)).2).docsSent =
      (guardWorld 100 130).docsSent ∧
    ((handle_message "hi" 1 7 0 none (guardWorld 100 130)).2).nextUuid =
      (guardWorld 100 130).nextUuid ∧
    ((handle_message "hi" 1 7 0 none (guardWorld 100 130)).2).sent =
      (guardWorld 100 130).sent ++ [(1, busyMsg)] :=
  claim_C10_busy_rejection_frame "hi" 1 7 0 (guardWorld 100 130)
    (guardSession 100) (by decide) (by decide) (by decide) (by decide)
    (by decide) (by decide) (by decide)

/-! ### Archive round-trip (C5) -/

theorem s3find_s3put_self (b : List ((Int × String) × ArchiveRec))
    (k : Int × String) (r : ArchiveRec) : s3find (s3put b k r) k = some r := by
  induction b with
  | nil => simp [s3put, s3find]
  | cons x xs ih =>
    by_cases h : x.1 = k
    · simp [s3put, s3find, h]
    · simp only [s3put, if_neg h]
      simp only [s3find, List.find?] at ih ⊢
      rw [decide_eq_false h]
      exact ih

/-- **C5.** Archiving a session with a non-empty `session_id` and then
retrieving the archive by `(user_id, session_id)` yields a record whose
`conversation` equals the session's conversation at archive time, both
before and after the follow-up delete; after a successful archive-plus-
delete the session's key no longer appears among `get_user_items`. -/
theorem claim_C5_archive_roundtrip (uid : Int) (s : Session) (w : World)
    (hsid : s.session_id ≠ "")
    (hs3put : w.env.s3PutRaises = false)
    (hs3get : w.env.s3GetRaises = false)
    (hdel : w.env.dynamoDeleteRaises = false) :
    (archive_session_to_s3 uid s w).1 = some (uid, s.session_id) ∧
    (get_archive_from_s3 uid s.session_id
        (archive_session_to_s3 uid s w).2).map ArchiveRec.conversation =
      some s.conversation ∧
    (delete_session_from_dynamodb uid s.sk
        (archive_session_to_s3 uid s w).2).1 = true ∧
    (get_archive_from_s3 uid s.session_id
        (delete_session_from_dynamodb uid s.sk
          (archive_session_to_s3 uid s w).2).2).map ArchiveRec.conversation =
      some s.conversation ∧
    ∀ it ∈ get_user_items uid
        (delete_session_from_dynamodb uid s.sk
          (archive_session_to_s3 uid s w).2).2,
      itemKey it ≠ (uid, s.sk) := by
  unfold archive_session_to_s3 delete_session_from_dynamodb
  rw [if_neg hsid, hs3put]
  simp only [Bool.false_eq_true, if_false, hdel]
  refine ⟨by trivial, ?_, by trivial, ?_, ?_⟩
  · simp only [get_archive_from_s3, hs3get, Bool.false_eq_true, if_false]
    rw [s3find_s3put_self]
    rfl
  · simp only [get_archive_from_s3, hs3get, Bool.false_eq_true, if_false]
    rw [s3find_s3put_self]
    rfl
  · intro it hmem
    simp only [get_user_items, queryPk, deleteItem] at hmem
    split at hmem
    · exact absurd hmem (List.not_mem_nil it)
    · rcases List.mem_filter.mp hmem with ⟨hmem1, _⟩
      rcases List.mem_filter.mp hmem1 with ⟨_, hne⟩
      exact of_decide_eq_true hne

/-- Witness for C5 at a concrete session and world. -/
theorem claim_C5_archive_roundtrip_witness :
    (archive_session_to_s3 7 (guardSession 0) (guardWorld 0 10)).1 =
      some (7, "uuid-a") ∧
    (get_archive_from_s3 7 "uuid-a"
        (archive_session_to_s3 7 (guardSession 0)
          (guardWorld 0 10)).2).map ArchiveRec.conversation =
      some (guardSession 0).conversation ∧
    (delete_session_from_dynamodb 7 (guardSession 0).sk
        (archive_session_to_s3 7 (guardSession 0) (guardWorld 0 10)).2).1 =
      true ∧
    (get_archive_from_s3 7 "uuid-a"
        (delete_session_from_dynamodb 7 (guardSession 0).sk
          (archive_session_to_s3 7 (guardSession 0)
            (guardWorld 0 10)).2).2).map ArchiveRec.conversation =
      some (guardSession 0).conversation ∧
    ∀ it ∈ get_user_items 7
        (delete_session_from_dynamodb 7 (guardSession 0).sk
          (archive_session_to_s3 7 (guardSession 0) (guardWorld 0 10)).2).2,
      itemKey it ≠ (7, (guardSession 0).sk) := by
  have h := claim_C5_archive_roundtrip 7 (guardSession 0) (guardWorld 0 10)
    (by decide) (by decide) (by decide) (by decide)
  exact h

/-! ### Import validation (C6) -/

/-- **C6.** An uploaded archive payload lacking the `conversation` field is
rejected with the invalid-format reply and creates no new archive entry
(and touches no store at all beyond the reply); a valid payload produces
exactly one new archive entry under a freshly drawn session id — distinct
from the original id whenever the fresh id does not collide with it, the
uuid4 assumption — and import never writes to the live session table. -/
theorem claim_C6_import_validation
    (doc : Document) (chatId uid : Int) (p : UploadPayload) (w : World)
    (hname : strEndsWith doc.file_name ".json" = true)
    (hfile : w.env.getFile doc.file_id = some (.json p))
    (hsend : w.env.sendOk = true) :
    (p.conversation = none →
      handle_document doc chatId uid w =
        (.ok "invalid_archive_format",
          { w with sent := w.sent ++ [(chatId, invalidFormatMsg)] })) ∧
    (∀ conv, p.conversation = some conv →
      w.env.s3PutRaises = false →
      uuidString w.nextUuid ≠ p.session_id.getD "unknown" →
      (handle_document doc chatId uid w).1 = .ok "imported" ∧
      ((handle_document doc chatId uid w).2).table = w.table ∧
      ∃ r, ((handle_document doc chatId uid w).2).s3 =
          s3put w.s3 (uid, uuidString w.nextUuid) r ∧
        r.conversation = conv ∧
        r.session_id = uuidString w.nextUuid ∧
        r.origin = .importedFrom (p.session_id.getD "unknown") p.user_id ∧
        r.session_id ≠ p.session_id.getD "unknown") := by
  constructor
  · intro hconv
    unfold handle_document
    rw [if_neg (by simp [hname]), hfile]
    simp only [if_pos hconv]
    rw [sendM_of_sendOk chatId invalidFormatMsg w hsend]
  · intro conv hconv hs3put hfreshId
    unfold handle_document
    rw [if_neg (by simp [hname]), hfile]
    simp only [hconv, reduceCtorEq, if_false]
    unfold import_archive_to_s3
    simp only [hs3put, Bool.false_eq_true, if_false]
    refine ⟨by trivial, by rw [sendM_table], ?_⟩
    refine ⟨_, by rw [sendM_s3]; rfl, by simp [hconv], rfl, rfl, hfreshId⟩

/-- A valid one-message upload payload. -/
def goodPayload : UploadPayload :=
  { conversation := some [{ role := "user", content := "hi", ts := 1 }],
    model_name := some "tinyllama", session_id := some "orig-1",
    user_id := some 9, last_message_ts := some 1, archived_at := none }

/-- An upload payload missing `conversation`. -/
def badPayload : UploadPayload :=
  { conversation := none, model_name := some "tinyllama",
    session_id := some "orig-1", user_id := some 9,
    last_message_ts := some 1, archived_at := none }

/-- The uploaded document used by the import witnesses. -/
def importDoc : Document :=
  { file_name := "archive.json", file_id := "f1",
    mime_type := "application/json" }

/-- A world whose file download yields the given payload. -/
def importWorld (fc : FileContent) : World :=
  { baseWorld with env := { envOk with getFile := fun _ => some fc } }

/-- Witness for C6: the bad payload is rejected without touching the
stores, the good payload creates one fresh-id archive entry. -/
theorem claim_C6_import_validation_witness :
    (handle_document importDoc 1 7 (importWorld (.json badPayload)) =
      (.ok "invalid_archive_format",
        { importWorld (.json badPayload) with
            sent := (importWorld (.json badPayload)).sent ++
              [(1, invalidFormatMsg)] })) ∧
    ((handle_document importDoc 1 7 (importWorld (.json goodPayload))).1 =
        .ok "imported" ∧
      ((handle_document importDoc 1 7
          (importWorld (.json goodPayload))).2).table =
        (importWorld (.json goodPayload)).table ∧
      ∃ r, ((handle_document importDoc 1 7
            (importWorld (.json goodPayload))).2).s3 =
          s3put (importWorld (.json goodPayload)).s3 (7, uuidString 0) r ∧
        r.conversation = [{ role := "user", content := "hi", ts := 1 }] ∧
        r.session_id = uuidString 0 ∧
        r.origin = .importedFrom "orig-1" (some 9) ∧
        r.session_id ≠ "orig-1") := by
  constructor
  · exact (claim_C6_import_validation importDoc 1 7 badPayload
      (importWorld (.json badPayload)) (by decide) rfl (by decide)).1 rfl
  · exact (claim_C6_import_validation importDoc 1 7 goodPayload
      (importWorld (.json goodPayload)) (by decide) rfl (by decide)).2
      [{ role := "user", content := "hi", ts := 1 }] rfl rfl (by decide)

/-! ### Archive partial-failure reporting (C7) -/

/-- A parse success implies the payload was not blank (the blank-payload
listing branch of `/archive` is not taken). -/
theorem pyParseInt_strip_ne (s : String) (n : Int)
    (h : pyParseInt s = some n) : pyStrip s ≠ "" := by
  intro he
  rw [pyParseInt, he] at h
  simp at h

/-- `handle_command` dispatches `/archive` to `cmd_archive`. -/
theorem handle_command_archive (payload : String) (chatId uid updId : Int)
    (w : World) :
    handle_command "/archive" payload chatId uid updId w =
      cmd_archive payload chatId uid w := by
  simp [handle_command]

/-- The same world with injected archive-path faults. -/
def withArchFaults (w : World) (b c : Bool) : World :=
  { w with env := { w.env with s3PutRaises := b, dynamoDeleteRaises := c } }

/-- The full-success reply is long. -/
theorem archiveSuccessMsg_length (s : Session) :
    100 ≤ (archiveSuccessMsg s).length := by
  unfold archiveSuccessMsg
  simp only [String.length_append]
  have h1 : ("Session archived successfully!\n- Model: " : String).length = 40 := by decide
  have h2 : ("\n- Messages: " : String).length = 13 := by decide
  have h3 : ("\n- Archive ID: " : String).length = 15 := by decide
  have h4 : ("\n\nUse /listarchives to see your archives." : String).length = 41 := by decide
  omega

theorem archiveSuccessMsg_ne_partial (s : Session) :
    archiveSuccessMsg s ≠
      "Session saved to S3 but failed to remove from active storage." := by
  intro h
  have h1 := archiveSuccessMsg_length s
  rw [h] at h1
  revert h1
  decide

theorem archiveSuccessMsg_ne_total (s : Session) :
    archiveSuccessMsg s ≠
      "Failed to archive session to S3. Please try again." := by
  intro h
  have h1 := archiveSuccessMsg_length s
  rw [h] at h1
  revert h1
  decide

/-- **C7.** When the `/archive <n>` S3 write succeeds but the session-store
delete fails, the user gets the partial-success reply, which is distinct
from both the full-success reply and the total-failure reply; full success
is never claimed in the partial state. -/
theorem claim_C7_archive_partial_failure_distinct
    (payload : String) (chatId uid : Int) (n : Int) (s : Session) (w : World)
    (hparse : pyParseInt payload = some n)
    (hidx : ¬(n - 1 < 0))
    (hsess : (sessionsOf uid w).get? (n - 1).toNat = some s)
    (hsid : s.session_id ≠ "")
    (hsend : w.env.sendOk = true) :
    (handle_command "/archive" payload chatId uid 0
        (withArchFaults w true false)).1 = .ok "archive_s3_error" ∧
    ((handle_command "/archive" payload chatId uid 0
        (withArchFaults w true false)).2).sent =
      w.sent ++ [(chatId, "Failed to archive session to S3. Please try again.")] ∧
    (handle_command "/archive" payload chatId uid 0
        (withArchFaults w false true)).1 = .ok "archive_cleanup_error" ∧
    ((handle_command "/archive" payload chatId uid 0
        (withArchFaults w false true)).2).sent =
      w.sent ++
        [(chatId, "Session saved to S3 but failed to remove from active storage.")] ∧
    (handle_command "/archive" payload chatId uid 0
        (withArchFaults w false false)).1 = .ok "archived" ∧
    ((handle_command "/archive" payload chatId uid 0
        (withArchFaults w false false)).2).sent =
      w.sent ++ [(chatId, archiveSuccessMsg s)] ∧
    ("Session saved to S3 but failed to remove from active storage." : String) ≠
      "Failed to archive session to S3. Please try again." ∧
    archiveSuccessMsg s ≠
      "Session saved to S3 but failed to remove from active storage." ∧
    archiveSuccessMsg s ≠
      "Failed to archive session to S3. Please try again." := by
  have hblank := pyParseInt_strip_ne payload n hparse
  have hnil : sessionsOf uid w ≠ [] := by
    intro h
    rw [h] at hsess
    simp at hsess
  have hstep : ∀ b c : Bool,
      sessionsOf uid (withArchFaults w b c) = sessionsOf uid w := fun _ _ => rfl
  refine ⟨?_, ?_, ?_, ?_, ?_, ?_, by decide, archiveSuccessMsg_ne_partial s,
    archiveSuccessMsg_ne_total s⟩ <;>
    rw [handle_command_archive] <;>
    unfold cmd_archive <;>
    rw [hstep] <;>
    rw [if_neg hnil, if_neg hblank, hparse] <;>
    simp only [if_neg hidx, hsess] <;>
    unfold archive_session_to_s3 delete_session_from_dynamodb <;>
    rw [if_neg hsid] <;>
    simp [withArchFaults, sendM, send_message, hsend]

/-- Witness for C7: with one concrete session, the three fault scenarios of
`/archive 1` yield the three distinct outcomes. -/
theorem claim_C7_archive_partial_failure_distinct_witness :
    (handle_command "/archive" "1" 1 7 0
        (withArchFaults (guardWorld 0 20) false true)).1 =
      .ok "archive_cleanup_error" ∧
    (handle_command "/archive" "1" 1 7 0
        (withArchFaults (guardWorld 0 20) true false)).1 =
      .ok "archive_s3_error" ∧
    (handle_command "/archive" "1" 1 7 0
        (withArchFaults (guardWorld 0 20) false false)).1 =
      .ok "archived" := by
  have h := claim_C7_archive_partial_failure_distinct "1" 1 7 1
    (guardSession 0) (guardWorld 0 20) (by decide) (by decide) (by decide)
    (by decide) (by decide)
  exact ⟨h.2.2.1, h.1, h.2.2.2.2.1⟩

/-! ### `/switch` failure modes (C8) -/

/-- `handle_command` dispatches `/switch` to `cmd_switch`. -/
theorem handle_command_switch (payload : String) (chatId uid updId : Int)
    (w : World) :
    handle_command "/switch" payload chatId uid updId w =
      cmd_switch payload chatId uid w := by
  simp [handle_command]

/-- Counterexample to C8 as stated: the argument `"0"` does not parse as a
*positive* integer, so the claim requires the usage (`InvalidInput`) reply;
but `int("0")` succeeds, the bounds check `0 <= idx < len` fails, and the
code sends the invalid-number (`IndexOutOfRange`) reply instead. -/
theorem claim_C8_counterexample :
    pyParseInt "0" = some 0 ∧
    ¬((0 : Int) > 0) ∧
    ((handle_command "/switch" "0" 1 7 0 (guardWorld 0 30)).2).sent =
      [(1, "Invalid session number. Use /listsessions.")] ∧
    ("Invalid session number. Use /listsessions." : String) ≠
      "Usage: /switch <number> (e.g., /switch 1)" := by
  refine ⟨by decide, by decide, ?_, by decide⟩
  decide

/-- **C8 (amended).** If the `/switch` argument does not parse as an
integer at all, the command fails with the usage reply; if it parses to an
integer whose value is outside `[1, n]` — including zero and negative
integers, which are not positive — it fails with the invalid-number reply;
in both failure cases the session table (in particular every `is_active`
flag) is unchanged. -/
theorem claim_C8_switch_failure_modes
    (payload : String) (chatId uid updId : Int) (w : World)
    (hsend : w.env.sendOk = true) :
    (pyParseInt payload = none →
      handle_command "/switch" payload chatId uid updId w =
        (.ok "invalid_switch",
          { w with sent :=
              w.sent ++ [(chatId, "Usage: /switch <number> (e.g., /switch 1)")] })) ∧
    (∀ n, pyParseInt payload = some n →
      (n - 1 < 0 ∨ (sessionsOf uid w).get? (n - 1).toNat = none) →
      handle_command "/switch" payload chatId uid updId w =
        (.ok "invalid_switch",
          { w with sent :=
              w.sent ++ [(chatId, "Invalid session number. Use /listsessions.")] })) := by
  constructor
  · intro hparse
    rw [handle_command_switch]
    unfold cmd_switch
    rw [hparse]
    rw [sendM_of_sendOk _ _ _ hsend]
  · intro n hparse hbad
    rw [handle_command_switch]
    unfold cmd_switch
    rw [hparse]
    rcases hbad with hneg | hnone
    · simp only [if_pos hneg]
      rw [sendM_of_sendOk _ _ _ hsend]
    · by_cases hneg : n - 1 < 0
      · simp only [if_pos hneg]
        rw [sendM_of_sendOk _ _ _ hsend]
      · simp only [if_neg hneg, hnone]
        rw [sendM_of_sendOk _ _ _ hsend]

/-- Witness for the amended C8: a non-numeric argument gets the usage
reply, an out-of-range argument gets the invalid-number reply, and the
session table is untouched in both cases. -/
theorem claim_C8_switch_failure_modes_witness :
    handle_command "/switch" "abc" 1 7 0 (guardWorld 0 40) =
      (.ok "invalid_switch",
        { guardWorld 0 40 with sent :=
            (guardWorld 0 40).sent ++
              [(1, "Usage: /switch <number> (e.g., /switch 1)")] }) ∧
    handle_command "/switch" "5" 1 7 0 (guardWorld 0 40) =
      (.ok "invalid_switch",
        { guardWorld 0 40 with sent :=
            (guardWorld 0 40).sent ++
              [(1, "Invalid session number. Use /listsessions.")] }) := by
  constructor
  · exact (claim_C8_switch_failure_modes "abc" 1 7 0 (guardWorld 0 40)
      (by decide)).1 (by decide)
  · exact (claim_C8_switch_failure_modes "5" 1 7 0 (guardWorld 0 40)
      (by decide)).2 5 (by decide) (Or.inr (by decide))

/-! ### Table well-formedness and key lemmas -/

/-- Every session row carries a `MODEL#…` sort key — true of every row the
code ever writes; dedup markers and the offset row live at their own fixed
keys. -/
def wfTableB (t : List Item) : Bool :=
  t.all (fun it =>
    match it with
    | .sess s => isModelSK s.sk
    | _ => true)

/-- Primary keys are unique, as DynamoDB guarantees. -/
def nodupKeys (t : List Item) : Prop :=
  (t.map itemKey).Nodup

theorem wfTableB_mem (t : List Item) (h : wfTableB t = true) (s : Session)
    (hmem : Item.sess s ∈ t) : isModelSK s.sk = true := by
  have := List.all_eq_true.mp h _ hmem
  simpa using this

theorem getItem_eq_some_key (t : List Item) (k : Int × SK) (it : Item)
    (h : getItem t k = some it) : itemKey it = k := by
  unfold getItem at h
  have h2 := @List.find?_some Item (fun x => decide (itemKey x = k)) it t h
  exact of_decide_eq_true h2

theorem getItem_eq_some_mem (t : List Item) (k : Int × SK) (it : Item)
    (h : getItem t k = some it) : it ∈ t := by
  unfold getItem at h
  exact List.mem_of_find?_eq_some h

theorem getItem_cons_pos (x : Item) (xs : List Item) (k : Int × SK)
    (h : itemKey x = k) : getItem (x :: xs) k = some x := by
  unfold getItem
  exact List.find?_cons_of_pos _ (decide_eq_true h)

theorem getItem_cons_neg (x : Item) (xs : List Item) (k : Int × SK)
    (h : itemKey x ≠ k) : getItem (x :: xs) k = getItem xs k := by
  unfold getItem
  exact List.find?_cons_of_neg _ (by simp [h])

theorem putItem_getItem_self (t : List Item) (it : Item) :
    getItem (putItem t it) (itemKey it) = some it := by
  induction t with
  | nil => exact getItem_cons_pos _ _ _ rfl
  | cons x xs ih =>
    by_cases h : itemKey x = itemKey it
    · simp only [putItem, if_pos h]
      exact getItem_cons_pos _ _ _ rfl
    · simp only [putItem, if_neg h]
      rw [getItem_cons_neg _ _ _ h]
      exact ih

theorem putItem_getItem_ne (t : List Item) (it : Item) (k : Int × SK)
    (hk : k ≠ itemKey it) : getItem (putItem t it) k = getItem t k := by
  induction t with
  | nil =>
    show getItem [it] k = getItem [] k
    rw [getItem_cons_neg _ _ _ (fun hc => hk hc.symm)]
  | cons x xs ih =>
    by_cases h : itemKey x = itemKey it
    · simp only [putItem, if_pos h]
      rw [getItem_cons_neg _ _ _ (fun hc => hk hc.symm),
        getItem_cons_neg _ _ _ (fun hc => hk (h ▸ hc).symm)]
    · simp only [putItem, if_neg h]
      by_cases hxk : itemKey x = k
      · rw [getItem_cons_pos _ _ _ hxk, getItem_cons_pos _ _ _ hxk]
      · rw [getItem_cons_neg _ _ _ hxk, getItem_cons_neg _ _ _ hxk]
        exact ih

theorem mem_putItem (t : List Item) (it x : Item) (h : x ∈ putItem t it) :
    x = it ∨ x ∈ t := by
  induction t with
  | nil =>
    exact Or.inl (List.mem_singleton.mp h)
  | cons y ys ih =>
    simp only [putItem] at h
    split at h
    · rcases List.mem_cons.mp h with h1 | h1
      · exact Or.inl h1
      · exact Or.inr (List.mem_cons_of_mem _ h1)
    · rcases List.mem_cons.mp h with h1 | h1
      · exact Or.inr (h1 ▸ List.mem_cons_self _ _)
      · rcases ih h1 with h2 | h2
        · exact Or.inl h2
        · exact Or.inr (List.mem_cons_of_mem _ h2)

theorem deleteItem_getItem_ne (t : List Item) (k k0 : Int × SK)
    (h : k0 ≠ k) : getItem (deleteItem t k) k0 = getItem t k0 := by
  induction t with
  | nil => rfl
  | cons x xs ih =>
    by_cases hx : itemKey x = k
    · have hstep : deleteItem (x :: xs) k = deleteItem xs k := by
        simp only [deleteItem, List.filter_cons]
        rw [decide_eq_false (fun hc : itemKey x ≠ k => hc hx)]
        simp
      rw [hstep, ih, getItem_cons_neg _ _ _ (fun hc => h (by rw [← hc, hx]))]
    · have hstep : deleteItem (x :: xs) k = x :: deleteItem xs k := by
        simp only [deleteItem, List.filter_cons]
        rw [decide_eq_true (show itemKey x ≠ k from hx)]
        simp
      rw [hstep]
      by_cases hxk : itemKey x = k0
      · rw [getItem_cons_pos _ _ _ hxk, getItem_cons_pos _ _ _ hxk]
      · rw [getItem_cons_neg _ _ _ hxk, getItem_cons_neg _ _ _ hxk]
        exact ih

theorem getItem_map_keyfix (t : List Item) (f : Item → Item)
    (hf : ∀ it, itemKey (f it) = itemKey it) (k : Int × SK) :
    getItem (t.map f) k = (getItem t k).map f := by
  induction t with
  | nil => rfl
  | cons x xs ih =>
    rw [List.map_cons]
    by_cases h : itemKey x = k
    · rw [getItem_cons_pos _ _ _ ((hf x).trans h), getItem_cons_pos _ _ _ h]
      rfl
    · rw [getItem_cons_neg _ _ _ (fun hc => h ((hf x) ▸ hc)),
        getItem_cons_neg _ _ _ h]
      exact ih

theorem updateIsActive_keyfix (k : Int × SK) (v : Nat) (it : Item) :
    itemKey (updFn k v it) = itemKey it := by
  cases it with
  | sess s =>
    simp only [updFn]
    by_cases h : (s.pk, s.sk) = k
    · simp [h, itemKey]
    · simp [h]
  | offsetRow a b => rfl
  | dedupRow a b => rfl

/-- Under well-formedness, flipping an `is_active` flag cannot disturb any
dedup marker lookup. -/
theorem updateIsActive_dedup_frame (t : List Item) (k : Int × SK) (v : Nat)
    (n : Int) (hwf : wfTableB t = true) :
    getItem (updateIsActive t k v) (0, .updateMark n) =
      getItem t (0, .updateMark n) := by
  unfold updateIsActive
  rw [getItem_map_keyfix _ _ (updateIsActive_keyfix k v)]
  cases hit : getItem t (0, .updateMark n) with
  | none => rfl
  | some it =>
    have hkey := getItem_eq_some_key _ _ _ hit
    have hmem := getItem_eq_some_mem _ _ _ hit
    cases it with
    | sess s =>
      have hwfs := wfTableB_mem t hwf s hmem
      have : s.sk = .updateMark n := by
        have := congrArg Prod.snd hkey
        simpa [itemKey] using this
      rw [this] at hwfs
      simp [isModelSK] at hwfs
    | offsetRow a b => rfl
    | dedupRow a b => rfl

theorem wfTableB_putItem (t : List Item) (it : Item)
    (h : wfTableB t = true)
    (hit : ∀ s : Session, it = .sess s → isModelSK s.sk = true) :
    wfTableB (putItem t it) = true := by
  apply List.all_eq_true.mpr
  intro x hx
  rcases mem_putItem t it x hx with h1 | h1
  · cases x with
    | sess s => simpa using hit s h1.symm
    | offsetRow a b => rfl
    | dedupRow a b => rfl
  · exact List.all_eq_true.mp h _ h1

theorem wfTableB_update (t : List Item) (k : Int × SK) (v : Nat)
    (h : wfTableB t = true) : wfTableB (updateIsActive t k v) = true := by
  apply List.all_eq_true.mpr
  intro x hx
  unfold updateIsActive at hx
  rcases List.mem_map.mp hx with ⟨y, hy, hxy⟩
  have hwy := List.all_eq_true.mp h _ hy
  cases y with
  | sess s =>
    simp only [updFn] at hxy
    by_cases hc : (s.pk, s.sk) = k
    · simp only [if_pos hc] at hxy
      rw [← hxy]
      simpa using hwy
    · simp only [if_neg hc] at hxy
      rw [← hxy]
      exact hwy
  | offsetRow a b =>
    rw [← hxy]
    rfl
  | dedupRow a b =>
    rw [← hxy]
    rfl

theorem wfTableB_delete (t : List Item) (k : Int × SK)
    (h : wfTableB t = true) : wfTableB (deleteItem t k) = true := by
  apply List.all_eq_true.mpr
  intro x hx
  exact List.all_eq_true.mp h _ (List.mem_of_mem_filter hx)

/-! ### The effect summary used by the dedup and batch claims -/

/-- Every step `handle_message` takes keeps the environment, keeps table
well-formedness, and (on a well-formed table) leaves every dedup marker
lookup untouched. -/
def Preserves (w w' : World) : Prop :=
  w'.env = w.env ∧
  (wfTableB w.table = true →
    wfTableB w'.table = true ∧
    ∀ n : Int, getItem w'.table (0, .updateMark n) =
      getItem w.table (0, .updateMark n))

theorem preserves_refl (w : World) : Preserves w w :=
  ⟨rfl, fun h => ⟨h, fun _ => rfl⟩⟩

theorem preserves_trans {w1 w2 w3 : World} (h1 : Preserves w1 w2)
    (h2 : Preserves w2 w3) : Preserves w1 w3 := by
  refine ⟨h2.1.trans h1.1, fun hwf => ?_⟩
  obtain ⟨hwf2, hframe2⟩ := h1.2 hwf
  obtain ⟨hwf3, hframe3⟩ := h2.2 hwf2
  exact ⟨hwf3, fun n => (hframe3 n).trans (hframe2 n)⟩

theorem preserves_of_table_eq {w w' : World} (ht : w'.table = w.table)
    (he : w'.env = w.env) : Preserves w w' :=
  ⟨he, fun h => ⟨ht ▸ h, fun n => by rw [ht]⟩⟩

theorem preserves_sendM (c : Int) (t : String) (w : World) :
    Preserves w (sendM c t w) :=
  preserves_of_table_eq (sendM_table c t w) (sendM_env c t w)

theorem editM_table (c : Int) (m : Nat) (t : String) (w : World) :
    (editM c m t w).table = w.table := by
  unfold editM; split <;> rfl

theorem editM_env (c : Int) (m : Nat) (t : String) (w : World) :
    (editM c m t w).env = w.env := by
  unfold editM; split <;> rfl

theorem preserves_editM (c : Int) (m : Nat) (t : String) (w : World) :
    Preserves w (editM c m t w) :=
  preserves_of_table_eq (editM_table c m t w) (editM_env c m t w)

theorem preserves_sendDoc (c : Int) (f cap : String) (w : World) :
    Preserves w (send_document c f cap w).2 := by
  unfold send_document
  split <;> exact preserves_of_table_eq rfl rfl

/-- A model-keyed sort key is never a dedup key. -/
theorem modelSK_key_ne_mark (pk : Int) (sk : SK) (n : Int)
    (hsk : isModelSK sk = true) :
    ((0 : Int), SK.updateMark n) ≠ (pk, sk) := by
  intro h
  have h2 := congrArg Prod.snd h
  simp only at h2
  rw [← h2] at hsk
  simp [isModelSK] at hsk

theorem preserves_put_sess (w : World) (s : Session)
    (hsk : isModelSK s.sk = true) :
    Preserves w { w with table := putItem w.table (.sess s) } := by
  refine ⟨rfl, fun hwf => ⟨?_, fun n => ?_⟩⟩
  · exact wfTableB_putItem _ _ hwf
      (fun s' hs' => by cases hs'; exact hsk)
  · exact putItem_getItem_ne _ _ _ (modelSK_key_ne_mark s.pk s.sk n hsk)

theorem preserves_update (w : World) (k : Int × SK) (v : Nat) :
    Preserves w { w with table := updateIsActive w.table k v } :=
  ⟨rfl, fun hwf => ⟨wfTableB_update _ _ _ hwf,
    fun n => updateIsActive_dedup_frame _ _ _ _ hwf⟩⟩

theorem preserves_delete (w : World) (uid : Int) (sk : SK)
    (hsk : isModelSK sk = true) :
    Preserves w { w with table := deleteItem w.table (uid, sk) } :=
  ⟨rfl, fun hwf => ⟨wfTableB_delete _ _ hwf,
    fun n => deleteItem_getItem_ne _ _ _ (modelSK_key_ne_mark uid sk n hsk)⟩⟩

/-- An active session returned by `get_active_session` is a row of the
table. -/
theorem get_active_session_mem (uid : Int) (w : World) (s : Session)
    (h : get_active_session uid w = some s) : Item.sess s ∈ w.table := by
  unfold get_active_session at h
  cases hf : (get_user_items uid w).find?
      (fun it => decide (itemIsActive it = 1)) with
  | none => rw [hf] at h; cases h
  | some it =>
    rw [hf] at h
    have hmem := List.mem_of_find?_eq_some hf
    cases it with
    | sess s0 =>
      cases h
      unfold get_user_items at hmem
      split at hmem
      · cases hmem
      · exact List.mem_of_mem_filter hmem
    | offsetRow a b => cases h
    | dedupRow a b => cases h

/-- Every entry of the `MODEL#`-filtered session list has a model sort key
and is a row of the table. -/
theorem sessionsOf_spec (uid : Int) (w : World) (s : Session)
    (h : s ∈ sessionsOf uid w) :
    isModelSK s.sk = true ∧ Item.sess s ∈ w.table := by
  unfold sessionsOf at h
  rcases List.mem_filterMap.mp h with ⟨it, hit, heq⟩
  cases it with
  | sess s0 =>
    change (if isModelSK s0.sk = true then some s0 else none) = some s at heq
    by_cases hm : isModelSK s0.sk = true
    · simp only [hm, if_true] at heq
      cases heq
      constructor
      · exact hm
      · unfold get_user_items at hit
        split at hit
        · cases hit
        · exact List.mem_of_mem_filter hit
    · rw [if_neg hm] at heq
      cases heq
  | offsetRow a b => cases heq
  | dedupRow a b => cases heq

/-- Chaining helper: extend an effect summary by one session put whose sort
key is known to be model-keyed whenever the base table is well-formed. -/
theorem preserves_trans_put (w w1 : World) (s1 : Session)
    (hp : Preserves w w1)
    (hsk : wfTableB w.table = true → isModelSK s1.sk = true) :
    Preserves w { w1 with table := putItem w1.table (.sess s1) } := by
  refine ⟨hp.1, fun hwf => ?_⟩
  obtain ⟨hwf1, hfr1⟩ := hp.2 hwf
  have hm := hsk hwf
  refine ⟨wfTableB_putItem _ _ hwf1 (fun s' hs' => by cases hs'; exact hm),
    fun n => ?_⟩
  rw [putItem_getItem_ne _ _ _ (modelSK_key_ne_mark s1.pk s1.sk n hm)]
  exact hfr1 n

theorem deactivateLoop_master (uid : Int) (sk : SK) (items : List Item)
    (w : World) (hupd : w.env.dynamoUpdateRaises = false) :
    ∃ w', deactivateLoop uid sk items w = (.ok (), w') ∧ Preserves w w' := by
  induction items generalizing w with
  | nil => exact ⟨w, rfl, preserves_refl w⟩
  | cons it rest ih =>
    unfold deactivateLoop
    by_cases hc : itemIsActive it = 1 ∧ (itemKey it).2 ≠ sk
    · rw [if_pos hc, hupd]
      simp only [Bool.false_eq_true, if_false]
      obtain ⟨w', heq, hp⟩ :=
        ih { w with table := updateIsActive w.table (uid, (itemKey it).2) 0 }
          hupd
      exact ⟨w', heq, preserves_trans (preserves_update w _ 0) hp⟩
    · rw [if_neg hc]
      exact ih w hupd

theorem create_session_master (uid : Int) (model : String) (w : World)
    (hput : w.env.dynamoPutRaises = false)
    (hupd : w.env.dynamoUpdateRaises = false) :
    ∃ s w', create_session uid model w = (.ok s, w') ∧ Preserves w w' ∧
      isModelSK s.sk = true := by
  unfold create_session
  simp only []
  obtain ⟨w', heq, hp⟩ := deactivateLoop_master uid
    (.modelSession model (uuidString w.nextUuid))
    (get_user_items uid { w with nextUuid := w.nextUuid + 1 })
    { w with nextUuid := w.nextUuid + 1 } hupd
  rw [heq]
  have hput' : w'.env.dynamoPutRaises = false := by rw [hp.1]; exact hput
  simp only [hput', Bool.false_eq_true, if_false]
  refine ⟨_, _, rfl, ?_, rfl⟩
  refine preserves_trans (preserves_of_table_eq rfl rfl)
    (preserves_trans hp (preserves_put_sess w' _ rfl))

theorem get_current_session_master (uid : Int) (w : World)
    (hput : w.env.dynamoPutRaises = false)
    (hupd : w.env.dynamoUpdateRaises = false) :
    ∃ s w', get_current_session uid w = (.ok s, w') ∧ Preserves w w' ∧
      (wfTableB w.table = true → isModelSK s.sk = true) := by
  unfold get_current_session
  cases ha : get_active_session uid w with
  | some s =>
    exact ⟨s, w, rfl, preserves_refl w,
      fun hwf => wfTableB_mem _ hwf s (get_active_session_mem uid w s ha)⟩
  | none =>
    obtain ⟨s, w', heq, hp, hsk⟩ := create_session_master uid "tinyllama" w
      hput hupd
    exact ⟨s, w', heq, hp, fun _ => hsk⟩

theorem setActiveLoop_master (uid : Int) (tsk : SK) (ss : List Session)
    (w : World) (hupd : w.env.dynamoUpdateRaises = false) :
    ∃ w', setActiveLoop uid tsk ss w = (.ok (), w') ∧ Preserves w w' := by
  induction ss generalizing w with
  | nil => exact ⟨w, rfl, preserves_refl w⟩
  | cons s rest ih =>
    unfold setActiveLoop
    rw [hupd]
    simp only [Bool.false_eq_true, if_false]
    obtain ⟨w', heq, hp⟩ :=
      ih { w with table :=
          updateIsActive w.table (uid, s.sk) (if s.sk = tsk then 1 else 0) }
        hupd
    exact ⟨w', heq, preserves_trans (preserves_update w _ _) hp⟩

/-- The three session puts of the chat accept path (user append, pending
mark, assistant append) preserve well-formedness and dedup lookups. -/
theorem tpres_chat (tw t1 : List Item) (s1 s2 s4 : Session)
    (h2 : s2.sk = s1.sk) (h4 : s4.sk = s1.sk)
    (hbase : wfTableB tw = true → wfTableB t1 = true ∧
      ∀ n : Int, getItem t1 (0, .updateMark n) = getItem tw (0, .updateMark n))
    (hsk : wfTableB tw = true → isModelSK s1.sk = true) :
    wfTableB tw = true →
      wfTableB (putItem (putItem (putItem t1 (.sess s1)) (.sess s2))
          (.sess s4)) = true ∧
      ∀ n : Int,
        getItem (putItem (putItem (putItem t1 (.sess s1)) (.sess s2))
            (.sess s4)) (0, .updateMark n) =
          getItem tw (0, .updateMark n) := by
  intro hwf
  have hm := hsk hwf
  obtain ⟨hwf1, hfr1⟩ := hbase hwf
  have hwf2 := wfTableB_putItem t1 (.sess s1) hwf1
    (fun s' hs' => by cases hs'; exact hm)
  have hwf3 := wfTableB_putItem _ (.sess s2) hwf2
    (fun s' hs' => by cases hs'; rw [h2]; exact hm)
  have hwf4 := wfTableB_putItem _ (.sess s4) hwf3
    (fun s' hs' => by cases hs'; rw [h4]; exact hm)
  refine ⟨hwf4, fun n => ?_⟩
  rw [putItem_getItem_ne _ _ _ (modelSK_key_ne_mark s4.pk s4.sk n (h4 ▸ hm)),
    putItem_getItem_ne _ _ _ (modelSK_key_ne_mark s2.pk s2.sk n (h2 ▸ hm)),
    putItem_getItem_ne _ _ _ (modelSK_key_ne_mark s1.pk s1.sk n hm)]
  exact hfr1 n

theorem chat_pipeline_master (t : String) (chatId uid : Int) (w : World)
    (hput : w.env.dynamoPutRaises = false)
    (hupd : w.env.dynamoUpdateRaises = false) :
    ∃ r w', chat_pipeline t chatId uid w = (.ok r, w') ∧ Preserves w w' := by
  obtain ⟨s, w1, heq1, hp1, hsk1⟩ := get_current_session_master uid w hput hupd
  have hput1 : w1.env.dynamoPutRaises = false := by rw [hp1.1]; exact hput
  unfold chat_pipeline
  rw [heq1]
  simp only []
  by_cases hguard :
      s.pending_request_ts ≠ 0 ∧ w1.now - s.pending_request_ts < 55
  · rw [if_pos hguard]
    exact ⟨_, _, rfl, preserves_trans hp1 (preserves_sendM _ _ _)⟩
  · rw [if_neg hguard]
    unfold append_to_conversation
    simp only [hput1, Bool.false_eq_true, if_false]
    cases hsend : w1.env.sendOk with
    | true =>
      simp only [send_message, hsend, if_true]
      simp only [hput1, Bool.false_eq_true, if_false]
      refine ⟨_, _, rfl, ?_⟩
      apply preserves_trans
      rotate_left
      · exact preserves_editM _ _ _ _
      · exact ⟨hp1.1, tpres_chat w.table w1.table _ _ _ rfl rfl hp1.2
          (fun hwf => hsk1 hwf)⟩
    | false =>
      simp only [send_message, hsend, Bool.false_eq_true, if_false]
      simp only [hput1, Bool.false_eq_true, if_false]
      refine ⟨_, _, rfl, ?_⟩
      apply preserves_trans
      rotate_left
      · exact preserves_sendM _ _ _
      · exact ⟨hp1.1, tpres_chat w.table w1.table _ _ _ rfl rfl hp1.2
          (fun hwf => hsk1 hwf)⟩

theorem archive_session_table (uid : Int) (s : Session) (w : World) :
    (archive_session_to_s3 uid s w).2.table = w.table := by
  unfold archive_session_to_s3
  split
  · rfl
  · split <;> rfl

theorem archive_session_env (uid : Int) (s : Session) (w : World) :
    (archive_session_to_s3 uid s w).2.env = w.env := by
  unfold archive_session_to_s3
  split
  · rfl
  · split <;> rfl

theorem import_archive_table (uid : Int) (p : UploadPayload) (w : World) :
    (import_archive_to_s3 uid p w).2.table = w.table := by
  unfold import_archive_to_s3
  simp only []
  split <;> rfl

theorem import_archive_env (uid : Int) (p : UploadPayload) (w : World) :
    (import_archive_to_s3 uid p w).2.env = w.env := by
  unfold import_archive_to_s3
  simp only []
  split <;> rfl

theorem cmd_start_hello_master (chatId uid : Int) (w : World)
    (hput : w.env.dynamoPutRaises = false)
    (hupd : w.env.dynamoUpdateRaises = false) :
    ∃ r w', cmd_start_hello chatId uid w = (.ok r, w') ∧ Preserves w w' := by
  unfold cmd_start_hello
  obtain ⟨s, w1, heq, hp, _⟩ := get_current_session_master uid w hput hupd
  rw [heq]
  exact ⟨_, _, rfl, preserves_trans hp (preserves_sendM _ _ _)⟩

theorem cmd_newsession_master (chatId uid : Int) (w : World)
    (hput : w.env.dynamoPutRaises = false)
    (hupd : w.env.dynamoUpdateRaises = false) :
    ∃ r w', cmd_newsession chatId uid w = (.ok r, w') ∧ Preserves w w' := by
  unfold cmd_newsession
  obtain ⟨s, w1, heq, hp, _⟩ := create_session_master uid "tinyllama" w hput hupd
  rw [heq]
  exact ⟨_, _, rfl, preserves_trans hp (preserves_sendM _ _ _)⟩

theorem cmd_listsessions_master (chatId uid : Int) (w : World) :
    ∃ r w', cmd_listsessions chatId uid w = (.ok r, w') ∧ Preserves w w' := by
  unfold cmd_listsessions
  simp only []
  split <;> exact ⟨_, _, rfl, preserves_sendM _ _ _⟩

theorem cmd_switch_master (payload : String) (chatId uid : Int) (w : World)
    (hupd : w.env.dynamoUpdateRaises = false) :
    ∃ r w', cmd_switch payload chatId uid w = (.ok r, w') ∧ Preserves w w' := by
  unfold cmd_switch
  cases hp0 : pyParseInt payload with
  | none => exact ⟨_, _, rfl, preserves_sendM _ _ _⟩
  | some n =>
    simp only []
    by_cases hidx : (n - 1 : Int) < 0
    · rw [if_pos hidx]
      exact ⟨_, _, rfl, preserves_sendM _ _ _⟩
    · rw [if_neg hidx]
      cases hg : (sessionsOf uid w).get? (n - 1).toNat with
      | none => exact ⟨_, _, rfl, preserves_sendM _ _ _⟩
      | some target =>
        simp only []
        obtain ⟨w', heq, hpp⟩ :=
          setActiveLoop_master uid target.sk (sessionsOf uid w) w hupd
        rw [heq]
        exact ⟨_, _, rfl, preserves_trans hpp (preserves_sendM _ _ _)⟩

theorem cmd_history_master (chatId uid : Int) (w : World)
    (hput : w.env.dynamoPutRaises = false)
    (hupd : w.env.dynamoUpdateRaises = false) :
    ∃ r w', cmd_history chatId uid w = (.ok r, w') ∧ Preserves w w' := by
  unfold cmd_history
  obtain ⟨s, w1, heq, hp, _⟩ := get_current_session_master uid w hput hupd
  rw [heq]
  simp only []
  split <;> exact ⟨_, _, rfl, preserves_trans hp (preserves_sendM _ _ _)⟩

theorem cmd_archive_master (payload : String) (chatId uid : Int)
    (w : World) :
    ∃ r w', cmd_archive payload chatId uid w = (.ok r, w') ∧ Preserves w w' := by
  unfold cmd_archive
  simp only []
  by_cases h0 : sessionsOf uid w = []
  · rw [if_pos h0]
    exact ⟨_, _, rfl, preserves_sendM _ _ _⟩
  · rw [if_neg h0]
    by_cases h1 : pyStrip payload = ""
    · rw [if_pos h1]
      exact ⟨_, _, rfl, preserves_sendM _ _ _⟩
    · rw [if_neg h1]
      cases hp0 : pyParseInt payload with
      | none => exact ⟨_, _, rfl, preserves_sendM _ _ _⟩
      | some n =>
        simp only []
        by_cases hidx : (n - 1 : Int) < 0
        · rw [if_pos hidx]
          exact ⟨_, _, rfl, preserves_sendM _ _ _⟩
        · rw [if_neg hidx]
          cases hg : (sessionsOf uid w).get? (n - 1).toNat with
          | none => exact ⟨_, _, rfl, preserves_sendM _ _ _⟩
          | some s =>
            simp only []
            have hmem : s ∈ sessionsOf uid w := List.get?_mem hg
            have hsk := (sessionsOf_spec uid w s hmem).1
            have hpa : Preserves w (archive_session_to_s3 uid s w).2 :=
              preserves_of_table_eq (archive_session_table uid s w)
                (archive_session_env uid s w)
            cases ha : archive_session_to_s3 uid s w with
            | mk res w1 =>
              rw [ha] at hpa
              cases res with
              | none => exact ⟨_, _, rfl, preserves_trans hpa (preserves_sendM _ _ _)⟩
              | some k =>
                unfold delete_session_from_dynamodb
                cases hd : w1.env.dynamoDeleteRaises with
                | true =>
                  simp only [hd, if_true]
                  exact ⟨_, _, rfl, preserves_trans hpa (preserves_sendM _ _ _)⟩
                | false =>
                  simp only [hd, Bool.false_eq_true, if_false]
                  exact ⟨_, _, rfl,
                    preserves_trans hpa
                      (preserves_trans (preserves_delete w1 uid s.sk hsk)
                        (preserves_sendM _ _ _))⟩

theorem cmd_listarchives_master (chatId uid : Int) (w : World) :
    ∃ r w', cmd_listarchives chatId uid w = (.ok r, w') ∧ Preserves w w' := by
  unfold cmd_listarchives
  simp only []
  split <;> exact ⟨_, _, rfl, preserves_sendM _ _ _⟩

theorem cmd_export_master (payload : String) (chatId uid : Int)
    (w : World) :
    ∃ r w', cmd_export payload chatId uid w = (.ok r, w') ∧ Preserves w w' := by
  unfold cmd_export
  by_cases h0 : pyStrip payload = ""
  · rw [if_pos h0]
    exact ⟨_, _, rfl, preserves_sendM _ _ _⟩
  · rw [if_neg h0]
    simp only []
    by_cases h1 : list_user_archives uid w = []
    · rw [if_pos h1]
      exact ⟨_, _, rfl, preserves_sendM _ _ _⟩
    · rw [if_neg h1]
      cases hp0 : pyParseInt payload with
      | none => exact ⟨_, _, rfl, preserves_sendM _ _ _⟩
      | some n =>
        simp only []
        by_cases hidx : (n - 1 : Int) < 0
        · rw [if_pos hidx]
          exact ⟨_, _, rfl, preserves_sendM _ _ _⟩
        · rw [if_neg hidx]
          cases hg : (list_user_archives uid w).get? (n - 1).toNat with
          | none => exact ⟨_, _, rfl, preserves_sendM _ _ _⟩
          | some info =>
            simp only []
            cases har : get_archive_from_s3 uid info.session_id w with
            | none => exact ⟨_, _, rfl, preserves_sendM _ _ _⟩
            | some ar =>
              simp only []
              unfold send_document
              cases hd : w.env.sendDocOk with
              | true =>
                simp only [hd, if_true]
                exact ⟨_, _, rfl,
                  preserves_trans (preserves_of_table_eq rfl rfl)
                    (preserves_sendM _ _ _)⟩
              | false =>
                simp only [hd, Bool.false_eq_true, if_false]
                exact ⟨_, _, rfl, preserves_sendM _ _ _⟩

theorem handle_document_master (d : Document) (chatId uid : Int)
    (w : World) :
    ∃ r w', handle_document d chatId uid w = (.ok r, w') ∧ Preserves w w' := by
  unfold handle_document
  split
  · exact ⟨_, _, rfl, preserves_sendM _ _ _⟩
  · cases hf : w.env.getFile d.file_id with
    | none => exact ⟨_, _, rfl, preserves_sendM _ _ _⟩
    | some fc =>
      cases fc with
      | notJson => exact ⟨_, _, rfl, preserves_sendM _ _ _⟩
      | json p =>
        simp only []
        split
        · exact ⟨_, _, rfl, preserves_sendM _ _ _⟩
        · have hpi : Preserves w (import_archive_to_s3 uid p w).2 :=
            preserves_of_table_eq (import_archive_table uid p w)
              (import_archive_env uid p w)
          cases hi : import_archive_to_s3 uid p w with
          | mk res w1 =>
            rw [hi] at hpi
            cases res with
            | none =>
              simp only []
              exact ⟨_, _, rfl, preserves_trans hpi (preserves_sendM _ _ _)⟩
            | some sid =>
              simp only []
              exact ⟨_, _, rfl, preserves_trans hpi (preserves_sendM _ _ _)⟩

theorem handle_command_master (cmd payload : String) (chatId uid updId : Int)
    (w : World)
    (hput : w.env.dynamoPutRaises = false)
    (hupd : w.env.dynamoUpdateRaises = false) :
    ∃ r w', handle_command cmd payload chatId uid updId w = (.ok r, w') ∧
      Preserves w w' := by
  unfold handle_command
  by_cases hc0 : cmd = "/start" ∨ cmd = "/hello"
  · rw [if_pos hc0]
    exact cmd_start_hello_master chatId uid w hput hupd
  · rw [if_neg hc0]
    by_cases hc1 : cmd = "/help"
    · rw [if_pos hc1]
      exact ⟨_, _, rfl, preserves_sendM _ _ _⟩
    · rw [if_neg hc1]
      by_cases hc2 : cmd = "/status"
      · rw [if_pos hc2]
        exact ⟨_, _, rfl, preserves_sendM _ _ _⟩
      · rw [if_neg hc2]
        by_cases hc3 : cmd = "/newsession"
        · rw [if_pos hc3]
          exact cmd_newsession_master chatId uid w hput hupd
        · rw [if_neg hc3]
          by_cases hc4 : cmd = "/listsessions"
          · rw [if_pos hc4]
            exact cmd_listsessions_master chatId uid w
          · rw [if_neg hc4]
            by_cases hc5 : cmd = "/switch"
            · rw [if_pos hc5]
              exact cmd_switch_master payload chatId uid w hupd
            · rw [if_neg hc5]
              by_cases hc6 : cmd = "/history"
              · rw [if_pos hc6]
                exact cmd_history_master chatId uid w hput hupd
              · rw [if_neg hc6]
                by_cases hc7 : cmd = "/echo"
                · rw [if_pos hc7]
                  exact ⟨_, _, rfl, preserves_sendM _ _ _⟩
                · rw [if_neg hc7]
                  by_cases hc8 : cmd = "/archive"
                  · rw [if_pos hc8]
                    exact cmd_archive_master payload chatId uid w
                  · rw [if_neg hc8]
                    by_cases hc9 : cmd = "/listarchives"
                    · rw [if_pos hc9]
                      exact cmd_listarchives_master chatId uid w
                    · rw [if_neg hc9]
                      by_cases hc10 : cmd = "/export"
                      · rw [if_pos hc10]
                        exact cmd_export_master payload chatId uid w
                      · rw [if_neg hc10]
                        exact ⟨_, _, rfl, preserves_sendM _ _ _⟩

/-- Totality and effect summary for the whole message router: with working
session-store writes, `handle_message` always returns a status (never an
exception), keeps the environment, preserves table well-formedness, and on
a well-formed table never disturbs a dedup marker. -/
theorem handle_message_master (text : String) (chatId uid updId : Int)
    (doc : Option Document) (w : World)
    (hput : w.env.dynamoPutRaises = false)
    (hupd : w.env.dynamoUpdateRaises = false) :
    ∃ r w', handle_message text chatId uid updId doc w = (.ok r, w') ∧
      Preserves w w' := by
  unfold handle_message
  cases doc with
  | some d => exact handle_document_master d chatId uid w
  | none =>
    by_cases h0 : text = ""
    · rw [if_pos h0]
      exact ⟨_, _, rfl, preserves_sendM _ _ _⟩
    · rw [if_neg h0]
      simp only []
      by_cases h1 : pyStrip text = ""
      · rw [if_pos h1]
        exact ⟨_, _, rfl, preserves_sendM _ _ _⟩
      · rw [if_neg h1]
        by_cases h2 : (pyStrip text).data.length > 4000
        · rw [if_pos h2]
          exact ⟨_, _, rfl, preserves_sendM _ _ _⟩
        · rw [if_neg h2]
          by_cases h3 : (pyStrip text).data.head? = some '/'
          · rw [if_pos h3]
            exact handle_command_master _ _ chatId uid updId w hput hupd
          · rw [if_neg h3]
            exact chat_pipeline_master _ chatId uid w hput hupd

/-! ### Dedup idempotence (C1) -/

/-- **C1.** Processing a fresh update writes the dedup marker before any
business logic runs (the marker is present afterwards even though the
message handling mutated the table), and replaying the same update is a
no-op: the second processing finds the marker, returns the `duplicate`
status and leaves the world entirely unchanged. -/
theorem claim_C1_dedup_idempotent (u : Update) (m : MessageIn) (c : Int)
    (w : World)
    (hm : u.message = some m) (hc : m.chat = some c)
    (hwf : wfTableB w.table = true)
    (hget : w.env.dynamoGetRaises = false)
    (hput : w.env.dynamoPutRaises = false)
    (hupd : w.env.dynamoUpdateRaises = false)
    (hfresh : getItem w.table (0, .updateMark u.update_id) = none) :
    ∃ h w1,
      process_telegram_update u w = (.ok (.processed u.update_id h), w1) ∧
      getItem w1.table (0, .updateMark u.update_id) =
        some (.dedupRow u.update_id w.now) ∧
      process_telegram_update u w1 = (.ok (.notProcessed "duplicate"), w1) := by
  have hwf0 : wfTableB (putItem w.table (.dedupRow u.update_id w.now)) = true :=
    wfTableB_putItem _ _ hwf (fun s hs => by cases hs)
  obtain ⟨r, w1, heqh, hp⟩ := handle_message_master m.text c (m.fromId.getD c)
    u.update_id m.document
    { w with table := putItem w.table (.dedupRow u.update_id w.now) }
    hput hupd
  obtain ⟨hwf1, hfr1⟩ := hp.2 hwf0
  have hmark : getItem w1.table (0, .updateMark u.update_id) =
      some (.dedupRow u.update_id w.now) := by
    rw [hfr1 u.update_id]
    exact putItem_getItem_self w.table (.dedupRow u.update_id w.now)
  refine ⟨r, w1, ?_, hmark, ?_⟩
  · unfold process_telegram_update
    rw [hm]
    simp only []
    rw [hc]
    simp only []
    rw [hget]
    simp only [Bool.false_eq_true, if_false]
    rw [hfresh]
    simp only []
    rw [hput]
    simp only [Bool.false_eq_true, if_false]
    rw [heqh]
  · unfold process_telegram_update
    rw [hm]
    simp only []
    rw [hc]
    simp only []
    have hget1 : w1.env.dynamoGetRaises = false := by
      rw [hp.1]
      exact hget
    rw [hget1]
    simp only [Bool.false_eq_true, if_false]
    rw [hmark]

/-- The concrete update used by the dedup and batch witnesses. -/
def mkChatUpdate (i chatId uid : Int) (text : String) : Update :=
  { update_id := i,
    message := some
      { chat := some chatId, fromId := some uid, text := text,
        document := none } }

/-- Witness for C1 on a concrete fresh update. -/
theorem claim_C1_dedup_idempotent_witness :
    ∃ h w1,
      process_telegram_update (mkChatUpdate 10 1 7 "hi") (guardWorld 0 50) =
        (.ok (.processed 10 h), w1) ∧
      getItem w1.table (0, .updateMark 10) = some (.dedupRow 10 50) ∧
      process_telegram_update (mkChatUpdate 10 1 7 "hi") w1 =
        (.ok (.notProcessed "duplicate"), w1) :=
  claim_C1_dedup_idempotent (mkChatUpdate 10 1 7 "hi")
    { chat := some 1, fromId := some 7, text := "hi", document := none } 1
    (guardWorld 0 50) rfl rfl (by decide) (by decide) (by decide) (by decide)
    (by decide)

/-! ### Batch processing (C4, C9) -/

/-- `process_telegram_update` never raises when the session-store writes
work, and it never changes the environment. -/
theorem process_telegram_update_master (u : Update) (w : World)
    (hput : w.env.dynamoPutRaises = false)
    (hupd : w.env.dynamoUpdateRaises = false) :
    ∃ r w1, process_telegram_update u w = (.ok r, w1) ∧ w1.env = w.env := by
  unfold process_telegram_update
  cases hm : u.message with
  | none => exact ⟨_, _, rfl, rfl⟩
  | some m =>
    simp only []
    cases hc : m.chat with
    | none => exact ⟨_, _, rfl, rfl⟩
    | some c =>
      simp only []
      cases hg : w.env.dynamoGetRaises with
      | true =>
        simp only [if_true]
        obtain ⟨r, w1, heqh, hp⟩ := handle_message_master m.text c
          (m.fromId.getD c) u.update_id m.document w hput hupd
        rw [heqh]
        exact ⟨_, _, rfl, hp.1⟩
      | false =>
        simp only [Bool.false_eq_true, if_false]
        cases hd : getItem w.table (0, .updateMark u.update_id) with
        | some it => exact ⟨_, _, rfl, rfl⟩
        | none =>
          simp only []
          rw [hput]
          simp only [Bool.false_eq_true, if_false]
          obtain ⟨r, w1, heqh, hp⟩ := handle_message_master m.text c
            (m.fromId.getD c) u.update_id m.document
            { w with table := putItem w.table (.dedupRow u.update_id w.now) }
            hput hupd
          rw [heqh]
          exact ⟨_, _, rfl, hp.1⟩

/-- The per-batch loop runs to completion whenever the session-store writes
work: no update in the batch can abort it. -/
theorem processBatch_master (us : List Update) (lastOffset : Int)
    (acc : List ProcResult) (maxId : Int) (w : World)
    (hput : w.env.dynamoPutRaises = false)
    (hupd : w.env.dynamoUpdateRaises = false) :
    ∃ v w1, processBatch us lastOffset acc maxId w = (.ok v, w1) ∧
      w1.env = w.env := by
  induction us generalizing acc maxId w with
  | nil => exact ⟨_, _, rfl, rfl⟩
  | cons u rest ih =>
    unfold processBatch
    split
    · exact ih acc (max maxId u.update_id) w hput hupd
    · obtain ⟨r, w1, heqp, henv⟩ := process_telegram_update_master u w hput hupd
      rw [heqp]
      simp only []
      cases r with
      | processed a b =>
        obtain ⟨v, w2, heqb, henv2⟩ := ih (ProcResult.processed a b :: acc)
          (max maxId u.update_id) w1 (by rw [henv]; exact hput)
          (by rw [henv]; exact hupd)
        exact ⟨v, w2, heqb, henv2.trans henv⟩
      | notProcessed a =>
        obtain ⟨v, w2, heqb, henv2⟩ := ih acc (max maxId u.update_id) w1
          (by rw [henv]; exact hput) (by rw [henv]; exact hupd)
        exact ⟨v, w2, heqb, henv2.trans henv⟩

/-- The environment whose session-store writes fail and whose poll returns
two fresh chat updates. -/
def envPutFail : Env :=
  { envOk with
    dynamoPutRaises := true
    poll := fun _ =>
      some [mkChatUpdate 10 1 7 "first", mkChatUpdate 11 2 8 "second"] }

/-- A world with one idle session for user 7, a saved offset of 10, and the
failing-put environment. -/
def wC4 : World :=
  { baseWorld with
    table := [.sess (guardSession 0), .offsetRow 10 0]
    env := envPutFail }

/-- Counterexample to C4 as stated: with the session store's `put_item`
raising, processing the first update of the batch raises inside
`append_to_conversation` (which has no try/except); nothing catches it
before the outermost handler, the invocation returns the 500 path
(`crashed`), no user-visible reply is ever sent, and the second update of
the batch is never processed. -/
theorem claim_C4_counterexample :
    (lambda_handler_polling wC4).1 = .crashed .dynamoPut ∧
    ((lambda_handler_polling wC4).2).sent = [] ∧
    ((lambda_handler_polling wC4).2).table = wC4.table := by
  refine ⟨by decide, by decide, by decide⟩

/-- **C4 (amended).** Upstream completion failures are converted into a
fixed user-safe fallback reply (`call_ollama` is total), and with working
session-store writes the poll-batch loop always runs to completion, every
update included; but a session-store write failure raised while processing
one update propagates uncaught and aborts the enclosing batch (see the
counterexample). -/
theorem claim_C4_batch_isolation (us : List Update) (lastOffset : Int)
    (acc : List ProcResult) (maxId : Int) (w : World)
    (hput : w.env.dynamoPutRaises = false)
    (hupd : w.env.dynamoUpdateRaises = false) :
    (∃ v w1, processBatch us lastOffset acc maxId w = (.ok v, w1)) ∧
    (∀ model msgs, w.env.ollama model msgs = .connError →
      call_ollama model msgs w = ollamaConnErrMsg) := by
  constructor
  · obtain ⟨v, w1, heq, _⟩ := processBatch_master us lastOffset acc maxId w
      hput hupd
    exact ⟨v, w1, heq⟩
  · intro model msgs h
    unfold call_ollama
    rw [h]

/-- A healthy-store world whose completion backend is unreachable. -/
def wOllamaDown : World :=
  { guardWorld 0 60 with
    env := { envOk with ollama := fun _ _ => .connError } }

/-- Witness for the amended C4: a two-update batch over a world whose
completion backend is down still processes both updates to completion. -/
theorem claim_C4_batch_isolation_witness :
    (∃ v w1, processBatch
        [mkChatUpdate 10 1 7 "first", mkChatUpdate 11 2 8 "second"] 10 [] 10
        wOllamaDown = (.ok v, w1)) ∧
    (∀ model msgs, wOllamaDown.env.ollama model msgs = .connError →
      call_ollama model msgs wOllamaDown = ollamaConnErrMsg) :=
  claim_C4_batch_isolation
    [mkChatUpdate 10 1 7 "first", mkChatUpdate 11 2 8 "second"] 10 [] 10
    wOllamaDown rfl rfl

/-- `save_offset` followed by `get_last_offset` reads the saved cursor. -/
theorem get_last_offset_save (x : Int) (w : World)
    (hput : w.env.dynamoPutRaises = false)
    (hget : w.env.dynamoGetRaises = false) :
    get_last_offset (save_offset x w) = x := by
  unfold save_offset get_last_offset
  rw [hput]
  simp only [Bool.false_eq_true, if_false]
  simp only [hget, Bool.false_eq_true, if_false]
  have h2 : getItem (putItem w.table (.offsetRow x w.now))
      (0, .lastUpdateId) = some (.offsetRow x w.now) :=
    putItem_getItem_self w.table (.offsetRow x w.now)
  rw [h2]

/-- **C9.** On the first run (stored offset 0), when the initial poll
returns a non-empty batch, only the single newest update (the last of the
batch) is processed — the final world is exactly the world obtained by
processing that one update and saving the offset, so the older updates
cause no session mutation — and the saved offset becomes that update's
identifier plus 1. -/
theorem claim_C9_first_run (w : World) (us : List Update) (u : Update)
    (hoff : get_last_offset w = 0)
    (hpoll : w.env.poll 0 = some us)
    (hlast : us.getLast? = some u)
    (hput : w.env.dynamoPutRaises = false)
    (hupd : w.env.dynamoUpdateRaises = false)
    (hget : w.env.dynamoGetRaises = false) :
    ∃ r w1, process_telegram_update u w = (.ok r, w1) ∧
      lambda_handler_polling w =
        (.firstRun r (us.length - 1), save_offset (u.update_id + 1) w1) ∧
      get_last_offset (save_offset (u.update_id + 1) w1) = u.update_id + 1 := by
  obtain ⟨r, w1, heqp, henv⟩ := process_telegram_update_master u w hput hupd
  refine ⟨r, w1, heqp, ?_, ?_⟩
  · unfold lambda_handler_polling
    simp only []
    rw [hoff]
    rw [if_pos (show (0 : Int) = 0 from rfl)]
    rw [hpoll]
    simp only []
    rw [hlast]
    simp only []
    rw [heqp]
  · exact get_last_offset_save (u.update_id + 1) w1
      (by rw [henv]; exact hput) (by rw [henv]; exact hget)

/-- The five-update first-run backlog. -/
def backlog5 : List Update :=
  [mkChatUpdate 10 1 7 "a", mkChatUpdate 11 1 7 "b", mkChatUpdate 12 1 7 "c",
    mkChatUpdate 13 1 7 "d", mkChatUpdate 14 1 7 "newest"]

/-- A fresh world (offset never stored) whose poll returns the backlog. -/
def wC9 : World :=
  { guardWorld 0 70 with env := { envOk with poll := fun _ => some backlog5 } }

/-- Witness for C9: a five-update backlog on first run; only the newest
update (id 14) is processed and the offset becomes 15. -/
theorem claim_C9_first_run_witness :
    ∃ r w1,
      process_telegram_update (mkChatUpdate 14 1 7 "newest") wC9 =
        (.ok r, w1) ∧
      lambda_handler_polling wC9 =
        (.firstRun r (backlog5.length - 1), save_offset 15 w1) ∧
      get_last_offset (save_offset 15 w1) = 15 :=
  claim_C9_first_run wC9 backlog5 (mkChatUpdate 14 1 7 "newest") (by decide)
    rfl (by decide) rfl rfl rfl

/-! ### Single-active-session invariant (C2) -/

/-- Number of rows in the user's partition with `is_active == 1`. -/
def activeSessCount (t : List Item) (uid : Int) : Nat :=
  t.countP (fun it =>
    decide ((itemKey it).1 = uid) && decide (itemIsActive it = 1))

theorem putItem_mem_self (t : List Item) (it : Item) : it ∈ putItem t it := by
  induction t with
  | nil => exact List.mem_singleton.mpr rfl
  | cons x xs ih =>
    unfold putItem
    split
    · exact List.mem_cons_self _ _
    · exact List.mem_cons_of_mem _ ih

theorem updateIsActive_keys (t : List Item) (k : Int × SK) (v : Nat) :
    (updateIsActive t k v).map itemKey = t.map itemKey := by
  unfold updateIsActive
  rw [List.map_map]
  exact List.map_congr_left (fun x _ => updateIsActive_keyfix k v x)

theorem nodupKeys_putItem (t : List Item) (it : Item) (h : nodupKeys t) :
    nodupKeys (putItem t it) := by
  induction t with
  | nil => simp [putItem, nodupKeys, itemKey]
  | cons x xs ih =>
    unfold nodupKeys at h ih ⊢
    rw [List.map_cons, List.nodup_cons] at h
    by_cases hk : itemKey x = itemKey it
    · simp only [putItem, if_pos hk, List.map_cons, List.nodup_cons]
      rw [← hk]
      exact h
    · simp only [putItem, if_neg hk, List.map_cons, List.nodup_cons]
      refine ⟨?_, ih h.2⟩
      intro hmem
      rcases List.mem_map.mp hmem with ⟨y, hy, hky⟩
      rcases mem_putItem xs it y hy with h1 | h1
      · exact hk (by rw [← hky, h1])
      · exact h.1 (hky ▸ List.mem_map_of_mem itemKey h1)

theorem nodupKeys_update (t : List Item) (k : Int × SK) (v : Nat)
    (h : nodupKeys t) : nodupKeys (updateIsActive t k v) := by
  unfold nodupKeys at *
  rw [updateIsActive_keys]
  exact h

/-- On a table with unique keys, if some row satisfies `p` and every row
satisfying `p` sits at the key `k`, then exactly one row satisfies `p`. -/
theorem countP_eq_one_of (t : List Item) (p : Item → Bool) (k : Int × SK)
    (hnd : nodupKeys t)
    (h1 : ∀ x ∈ t, p x = true → itemKey x = k)
    (h2 : ∃ x, x ∈ t ∧ p x = true) : t.countP p = 1 := by
  induction t with
  | nil =>
    rcases h2 with ⟨x, hx, _⟩
    cases hx
  | cons y ys ih =>
    unfold nodupKeys at hnd
    rw [List.map_cons, List.nodup_cons] at hnd
    rw [List.countP_cons]
    by_cases hy : p y = true
    · have hky := h1 y (List.mem_cons_self _ _) hy
      have hz : ys.countP p = 0 := by
        rw [List.countP_eq_zero]
        intro a ha hpa
        have hka := h1 a (List.mem_cons_of_mem _ ha) hpa
        apply hnd.1
        rw [hky, ← hka]
        exact List.mem_map_of_mem itemKey ha
      rw [hz, if_pos hy]
    · rw [if_neg hy, add_zero]
      refine ih hnd.2 (fun x hx hp => h1 x (List.mem_cons_of_mem _ hx) hp) ?_
      rcases h2 with ⟨x, hx, hp⟩
      rcases List.mem_cons.mp hx with h3 | h3
      · exact absurd (h3 ▸ hp) hy
      · exact ⟨x, h3, hp⟩

/-- An active row of an updated table either is an untouched original row
away from the updated key, or the update wrote `1` at its key. -/
theorem updateIsActive_active_mem (t : List Item) (k : Int × SK) (v : Nat)
    (x : Item) (hx : x ∈ updateIsActive t k v)
    (hact : itemIsActive x = 1) :
    (x ∈ t ∧ itemKey x ≠ k) ∨ (v = 1 ∧ itemKey x = k) := by
  unfold updateIsActive at hx
  rcases List.mem_map.mp hx with ⟨y, hy, hxy⟩
  cases y with
  | sess s =>
    simp only [updFn] at hxy
    by_cases hc : (s.pk, s.sk) = k
    · rw [if_pos hc] at hxy
      right
      rw [← hxy] at hact ⊢
      simp only [itemIsActive] at hact
      exact ⟨hact ▸ rfl, by simpa [itemKey] using hc⟩
    · rw [if_neg hc] at hxy
      rw [← hxy]
      exact Or.inl ⟨hy, by simpa [itemKey] using hc⟩
  | offsetRow a b =>
    rw [← hxy] at hact
    simp [itemIsActive, updFn] at hact
  | dedupRow a b =>
    rw [← hxy] at hact
    simp [itemIsActive, updFn] at hact

/-- A row away from the updated key passes through an update unchanged. -/
theorem updFn_ne (k : Int × SK) (v : Nat) (x : Item)
    (hk : itemKey x ≠ k) : updFn k v x = x := by
  cases x with
  | sess s =>
    simp only [updFn]
    rw [if_neg (fun hc => hk (by simpa [itemKey] using hc))]
  | offsetRow a b => rfl
  | dedupRow a b => rfl

theorem updateIsActive_mem_other (t : List Item) (k : Int × SK) (v : Nat)
    (x : Item) (hx : x ∈ t) (hk : itemKey x ≠ k) :
    x ∈ updateIsActive t k v := by
  unfold updateIsActive
  exact List.mem_map.mpr ⟨x, hx, updFn_ne k v x hk⟩

/-- Updating a session row's key to `1` puts an active session row at that
key. -/
theorem updFn_hit (k : Int × SK) (v : Nat) (s : Session)
    (hk : itemKey (Item.sess s) = k) :
    updFn k v (Item.sess s) = Item.sess { s with is_active := v } := by
  simp only [updFn]
  rw [if_pos (show (s.pk, s.sk) = k by simpa [itemKey] using hk)]

theorem updateIsActive_mem_hit (t : List Item) (k : Int × SK) (s : Session)
    (hx : Item.sess s ∈ t) (hk : itemKey (Item.sess s) = k) :
    Item.sess { s with is_active := 1 } ∈ updateIsActive t k 1 := by
  unfold updateIsActive
  exact List.mem_map.mpr ⟨Item.sess s, hx, updFn_hit k 1 s hk⟩

/-- Postcondition of the `create_session` deactivation loop: keys and
environment persist, and every still-active row is an untouched original
row whose key none of the deactivated snapshot entries carried. -/
theorem deactivateLoop_post (uid : Int) (sk : SK) (items : List Item)
    (w w1 : World) (heq : deactivateLoop uid sk items w = (.ok (), w1)) :
    w1.table.map itemKey = w.table.map itemKey ∧ w1.env = w.env ∧
    ∀ x, x ∈ w1.table → itemIsActive x = 1 →
      x ∈ w.table ∧
      ∀ it ∈ items, itemIsActive it = 1 → (itemKey it).2 ≠ sk →
        itemKey x ≠ (uid, (itemKey it).2) := by
  induction items generalizing w with
  | nil =>
    unfold deactivateLoop at heq
    injection heq with h1 h2
    subst h2
    exact ⟨rfl, rfl, fun x hx hact =>
      ⟨hx, fun it hit => absurd hit (List.not_mem_nil it)⟩⟩
  | cons it rest ih =>
    unfold deactivateLoop at heq
    by_cases hc : itemIsActive it = 1 ∧ (itemKey it).2 ≠ sk
    · rw [if_pos hc] at heq
      split at heq
      · simp at heq
      · obtain ⟨hkeys, henv, hpost⟩ := ih _ heq
        refine ⟨?_, henv, ?_⟩
        · rw [hkeys]
          exact updateIsActive_keys _ _ _
        · intro x hx hact
          obtain ⟨hxwu, hrest⟩ := hpost x hx hact
          rcases updateIsActive_active_mem w.table (uid, (itemKey it).2) 0 x
              hxwu hact with ⟨hxw, hne⟩ | ⟨h01, _⟩
          · refine ⟨hxw, ?_⟩
            intro it' hit' ha' hs'
            rcases List.mem_cons.mp hit' with h | h
            · rw [h]
              exact hne
            · exact hrest it' h ha' hs'
          · exact absurd h01 (by decide)
    · rw [if_neg hc] at heq
      obtain ⟨hkeys, henv, hpost⟩ := ih w heq
      refine ⟨hkeys, henv, fun x hx hact => ?_⟩
      obtain ⟨hxw, hrest⟩ := hpost x hx hact
      refine ⟨hxw, fun it' hit' ha' hs' => ?_⟩
      rcases List.mem_cons.mp hit' with h | h
      · exact absurd ⟨h ▸ ha', h ▸ hs'⟩ hc
      · exact hrest it' h ha' hs'

/-- Postcondition of the `/switch` activation loop: keys and environment
persist, and every still-active row either is an untouched original away
from all loop keys, or sits at the target sort key. -/
theorem setActiveLoop_post (uid : Int) (tsk : SK) (ss : List Session)
    (w w1 : World) (heq : setActiveLoop uid tsk ss w = (.ok (), w1)) :
    w1.table.map itemKey = w.table.map itemKey ∧ w1.env = w.env ∧
    ∀ x, x ∈ w1.table → itemIsActive x = 1 →
      (x ∈ w.table ∧ ∀ s ∈ ss, itemKey x ≠ (uid, s.sk)) ∨
        (itemKey x).2 = tsk := by
  induction ss generalizing w with
  | nil =>
    unfold setActiveLoop at heq
    injection heq with h1 h2
    subst h2
    exact ⟨rfl, rfl, fun x hx hact =>
      Or.inl ⟨hx, fun s hs => absurd hs (List.not_mem_nil s)⟩⟩
  | cons s rest ih =>
    unfold setActiveLoop at heq
    simp only [] at heq
    by_cases hup : w.env.dynamoUpdateRaises = true
    · rw [if_pos hup] at heq
      simp at heq
    · rw [if_neg hup] at heq
      obtain ⟨hkeys, henv, hpost⟩ := ih _ heq
      refine ⟨?_, henv, ?_⟩
      · rw [hkeys]
        exact updateIsActive_keys _ _ _
      · intro x hx hact
        rcases hpost x hx hact with ⟨hxwu, hns⟩ | htk
        · rcases updateIsActive_active_mem w.table (uid, s.sk) _ x hxwu hact
            with ⟨hxw, hne⟩ | ⟨hv1, hkx⟩
          · refine Or.inl ⟨hxw, fun s' hs' => ?_⟩
            rcases List.mem_cons.mp hs' with h | h
            · rw [h]
              exact hne
            · exact hns s' h
          · right
            have hstk : s.sk = tsk := by
              by_contra hcon
              rw [if_neg hcon] at hv1
              exact absurd hv1 (by decide)
            rw [hkx]
            exact hstk
        · exact Or.inr htk

/-- The `/switch` loop really activates the target: if a session row sits
at the target key and some loop entry carries the target sort key, an
active row ends up at the target key. -/
theorem setActiveLoop_exists (uid : Int) (tsk : SK) (ss : List Session)
    (w w1 : World) (heq : setActiveLoop uid tsk ss w = (.ok (), w1))
    (hinit :
      (∃ x, x ∈ w.table ∧ itemIsActive x = 1 ∧ itemKey x = (uid, tsk) ∧
        ∃ s0 : Session, x = .sess s0) ∨
      ((∃ s0 : Session, Item.sess s0 ∈ w.table ∧
          itemKey (Item.sess s0) = (uid, tsk)) ∧
        ∃ s ∈ ss, s.sk = tsk)) :
    ∃ x, x ∈ w1.table ∧ itemIsActive x = 1 ∧ itemKey x = (uid, tsk) := by
  induction ss generalizing w with
  | nil =>
    unfold setActiveLoop at heq
    injection heq with h1 h2
    subst h2
    rcases hinit with ⟨x, hx, hact, hk, _⟩ | ⟨_, s, hs, _⟩
    · exact ⟨x, hx, hact, hk⟩
    · exact absurd hs (List.not_mem_nil s)
  | cons s rest ih =>
    unfold setActiveLoop at heq
    simp only [] at heq
    by_cases hup : w.env.dynamoUpdateRaises = true
    · rw [if_pos hup] at heq
      simp at heq
    · rw [if_neg hup] at heq
      apply ih _ heq
      rcases hinit with ⟨x, hx, hact, hk, s0, hx0⟩ | ⟨⟨s0, hs0, hk0⟩, s', hs', hsk'⟩
      · subst hx0
        by_cases hck : itemKey (Item.sess s0) = (uid, s.sk)
        · have hstk : s.sk = tsk := by
            have h2 : ((uid : Int), s.sk) = (uid, tsk) := hck ▸ hk
            exact (Prod.mk.injEq _ _ _ _ ▸ h2 : _ ∧ _).2
          left
          rw [if_pos hstk]
          refine ⟨.sess { s0 with is_active := 1 }, ?_, rfl, ?_, _, rfl⟩
          · exact updateIsActive_mem_hit _ _ s0 hx (by rw [hck, hstk])
          · have h3 : itemKey (Item.sess { s0 with is_active := 1 }) =
                itemKey (Item.sess s0) := rfl
            rw [h3]
            exact hk
        · left
          exact ⟨.sess s0,
            updateIsActive_mem_other _ _ _ _ hx hck, hact, hk, s0, rfl⟩
      · by_cases hss : s.sk = tsk
        · left
          rw [if_pos hss]
          have hck : itemKey (Item.sess s0) = (uid, s.sk) := by
            rw [hk0, hss]
          refine ⟨.sess { s0 with is_active := 1 },
            updateIsActive_mem_hit _ _ s0 hs0 hck, rfl, ?_, _, rfl⟩
          have h3 : itemKey (Item.sess { s0 with is_active := 1 }) =
              itemKey (Item.sess s0) := rfl
          rw [h3]
          exact hk0
        · right
          have hne : itemKey (Item.sess s0) ≠ (uid, s.sk) := by
            rw [hk0]
            intro h2
            exact hss (((Prod.mk.injEq _ _ _ _).mp h2.symm).2)
          refine ⟨⟨s0, updateIsActive_mem_other _ _ _ _ hs0 hne, hk0⟩, ?_⟩
          rcases List.mem_cons.mp hs' with h | h
          · exact absurd (h ▸ hsk') hss
          · exact ⟨s', h, hsk'⟩

/-- `create_session` leaves exactly one active row in the user's partition
(the freshly inserted one), from any unique-keyed starting table. -/
theorem create_session_count (uid : Int) (model : String) (w : World)
    (hget : w.env.dynamoGetRaises = false)
    (hput : w.env.dynamoPutRaises = false)
    (hupd : w.env.dynamoUpdateRaises = false)
    (hnd : nodupKeys w.table) :
    ∃ s w', create_session uid model w = (.ok s, w') ∧
      w'.env = w.env ∧
      activeSessCount w'.table uid = 1 ∧
      nodupKeys w'.table ∧
      (wfTableB w.table = true → wfTableB w'.table = true) := by
  unfold create_session
  simp only []
  obtain ⟨w1, heqd, hpd⟩ := deactivateLoop_master uid
    (.modelSession model (uuidString w.nextUuid))
    (get_user_items uid { w with nextUuid := w.nextUuid + 1 })
    { w with nextUuid := w.nextUuid + 1 } hupd
  rw [heqd]
  have hput1 : w1.env.dynamoPutRaises = false := by rw [hpd.1]; exact hput
  simp only [hput1, Bool.false_eq_true, if_false]
  obtain ⟨hkeys, henv, hpost⟩ := deactivateLoop_post _ _ _ _ _ heqd
  have hnd1 : nodupKeys w1.table := by
    unfold nodupKeys
    rw [hkeys]
    exact hnd
  refine ⟨_, _, rfl, ?_, ?_, ?_, ?_⟩
  · exact henv
  · unfold activeSessCount
    simp only []
    apply countP_eq_one_of _ _
      ((uid : Int), SK.modelSession model (uuidString w.nextUuid))
      (nodupKeys_putItem _ _ hnd1)
    · intro x hx hp
      rw [Bool.and_eq_true, decide_eq_true_eq, decide_eq_true_eq] at hp
      obtain ⟨hpk, hact⟩ := hp
      rcases mem_putItem _ _ _ hx with h | h
      · rw [h]
        rfl
      · obtain ⟨hxw0, hall⟩ := hpost x h hact
        by_cases hsk2 :
            (itemKey x).2 = SK.modelSession model (uuidString w.nextUuid)
        · exact Prod.ext hpk hsk2
        · exfalso
          have hxsnap : x ∈
              get_user_items uid { w with nextUuid := w.nextUuid + 1 } := by
            unfold get_user_items
            simp only [hget, Bool.false_eq_true, if_false]
            exact List.mem_filter.mpr ⟨hxw0, by simpa using hpk⟩
          exact hall x hxsnap hact hsk2 (Prod.ext hpk rfl)
    · refine ⟨_, putItem_mem_self _ _, ?_⟩
      rw [Bool.and_eq_true, decide_eq_true_eq, decide_eq_true_eq]
      exact ⟨rfl, rfl⟩
  · exact nodupKeys_putItem _ _ hnd1
  · intro hwf
    have hwf1 := (hpd.2 hwf).1
    exact wfTableB_putItem _ _ hwf1 (fun s' hs' => by cases hs'; rfl)

/-- Every `list_user_sessions` result row carries the queried partition
key. -/
theorem sessionsOf_pk (uid : Int) (w : World) (s : Session)
    (h : s ∈ sessionsOf uid w) : s.pk = uid := by
  unfold sessionsOf at h
  rcases List.mem_filterMap.mp h with ⟨it, hit, heq⟩
  cases it with
  | sess s0 =>
    change (if isModelSK s0.sk = true then some s0 else none) = some s at heq
    by_cases hm : isModelSK s0.sk = true
    · simp only [hm, if_true] at heq
      cases heq
      unfold get_user_items at hit
      split at hit
      · cases hit
      · have := List.mem_filter.mp hit
        simpa [itemKey] using this.2
    · rw [if_neg hm] at heq
      cases heq
  | offsetRow a b => cases heq
  | dedupRow a b => cases heq

/-- Converse of `sessionsOf_spec`: any well-keyed session row of the user
appears in the query result when the read path works. -/
theorem mem_sessionsOf (uid : Int) (w : World) (s : Session)
    (hget : w.env.dynamoGetRaises = false)
    (hmem : Item.sess s ∈ w.table) (hpk : s.pk = uid)
    (hsk : isModelSK s.sk = true) : s ∈ sessionsOf uid w := by
  unfold sessionsOf
  apply List.mem_filterMap.mpr
  refine ⟨.sess s, ?_, ?_⟩
  · unfold get_user_items
    simp only [hget, Bool.false_eq_true, if_false]
    exact List.mem_filter.mpr ⟨hmem, by simp [itemKey, hpk]⟩
  · change (if isModelSK s.sk = true then some s else none) = some s
    rw [if_pos hsk]

/-- A `/switch` invocation that reports success leaves exactly one active
row in the user's partition (the chosen one), preserving the environment,
key uniqueness and table well-formedness. -/
theorem cmd_switch_count (payload : String) (chatId uid : Int) (w w2 : World)
    (hget : w.env.dynamoGetRaises = false)
    (hupd : w.env.dynamoUpdateRaises = false)
    (hwf : wfTableB w.table = true)
    (hnd : nodupKeys w.table)
    (heq : cmd_switch payload chatId uid w = (.ok "switch", w2)) :
    w2.env = w.env ∧ activeSessCount w2.table uid = 1 ∧
      nodupKeys w2.table ∧ wfTableB w2.table = true := by
  unfold cmd_switch at heq
  cases hp : pyParseInt payload with
  | none =>
    rw [hp] at heq
    simp only [] at heq
    injection heq with h1 h2
    injection h1 with h3
    exact absurd h3 (by decide)
  | some n =>
    rw [hp] at heq
    simp only [] at heq
    by_cases hneg : n - 1 < 0
    · rw [if_pos hneg] at heq
      injection heq with h1 h2
      injection h1 with h3
      exact absurd h3 (by decide)
    · rw [if_neg hneg] at heq
      cases hgt : (sessionsOf uid w).get? (n - 1).toNat with
      | none =>
        rw [hgt] at heq
        simp only [] at heq
        injection heq with h1 h2
        injection h1 with h3
        exact absurd h3 (by decide)
      | some target =>
        rw [hgt] at heq
        simp only [] at heq
        obtain ⟨w1, hloop, hpres⟩ :=
          setActiveLoop_master uid target.sk (sessionsOf uid w) w hupd
        rw [hloop] at heq
        simp only [] at heq
        injection heq with h1 h2
        obtain ⟨hkeys, henv1, hpost⟩ := setActiveLoop_post _ _ _ _ _ hloop
        have hnd1 : nodupKeys w1.table := by
          unfold nodupKeys
          rw [hkeys]
          exact hnd
        have htins : target ∈ sessionsOf uid w := List.get?_mem hgt
        refine ⟨?_, ?_, ?_, ?_⟩
        · rw [← h2, sendM_env]
          exact hpres.1
        · rw [← h2]
          unfold activeSessCount
          rw [sendM_table]
          apply countP_eq_one_of _ _ ((uid : Int), target.sk) hnd1
          · intro x hx hpx
            rw [Bool.and_eq_true, decide_eq_true_eq, decide_eq_true_eq] at hpx
            obtain ⟨hpk, hact⟩ := hpx
            rcases hpost x hx hact with ⟨hxw, hall⟩ | hsk2
            · exfalso
              cases x with
              | sess s =>
                have hpk' : s.pk = uid := hpk
                have hsm : isModelSK s.sk = true := wfTableB_mem _ hwf s hxw
                have hsmem : s ∈ sessionsOf uid w :=
                  mem_sessionsOf uid w s hget hxw hpk' hsm
                apply hall s hsmem
                show (s.pk, s.sk) = (uid, s.sk)
                rw [hpk']
              | offsetRow a b => simp [itemIsActive] at hact
              | dedupRow a b => simp [itemIsActive] at hact
            · exact Prod.ext hpk hsk2
          · obtain ⟨x, hxw1, hact, hk⟩ :=
              setActiveLoop_exists uid target.sk (sessionsOf uid w) w w1 hloop
                (Or.inr ⟨⟨target, (sessionsOf_spec _ _ _ htins).2, by
                    show (target.pk, target.sk) = (uid, target.sk)
                    rw [sessionsOf_pk uid w target htins]⟩,
                  target, htins, rfl⟩)
            refine ⟨x, hxw1, ?_⟩
            rw [Bool.and_eq_true, decide_eq_true_eq, decide_eq_true_eq]
            exact ⟨by rw [hk], hact⟩
        · rw [← h2]
          unfold nodupKeys
          rw [sendM_table]
          exact hnd1
        · rw [← h2, sendM_table]
          exact (hpres.2 hwf).1

/-- One call of the C2 sequence: a `create_session` for the user, or a
`/switch <payload>` command. -/
inductive SessOp where
  | create (model : String)
  | switch (payload : String)

/-- Whether an operation is a `/switch`. -/
def SessOp.isSwitch : SessOp → Bool
  | .switch _ => true
  | _ => false

/-- Run one operation, reporting `create_session` success as the status
`"created"`. -/
def applyOp (uid chatId : Int) (op : SessOp) (w : World) :
    Except PyErr String × World :=
  match op with
  | .create model =>
    match create_session uid model w with
    | (.ok _, w1) => (.ok "created", w1)
    | (.error e, w1) => (.error e, w1)
  | .switch payload => cmd_switch payload chatId uid w

/-- Run a sequence of operations, each starting from the previous call's
final state, collecting every intermediate result and state. -/
def runOps (uid chatId : Int) (ops : List SessOp) (w : World) :
    List (Except PyErr String × World) :=
  match ops with
  | [] => []
  | op :: rest =>
    let r := applyOp uid chatId op w
    r :: runOps uid chatId rest r.2

/-- **C2.** For one user and every finite sequence of create-session and
switch calls run back to back on a healthy store (no injected DynamoDB
faults, well-formed table with unique keys), where every `/switch` call in
the sequence reports success ("a valid switch"): after each call completes,
exactly one of the user's table rows has `is_active = 1` — `create_session`
deactivates every other active row and inserts the new session as active,
and a valid `/switch` activates exactly the chosen session while setting
all the user's other sessions inactive. -/
theorem claim_C2_single_active_invariant (uid chatId : Int)
    (ops : List SessOp) (w : World)
    (hget : w.env.dynamoGetRaises = false)
    (hput : w.env.dynamoPutRaises = false)
    (hupd : w.env.dynamoUpdateRaises = false)
    (hwf : wfTableB w.table = true)
    (hnd : nodupKeys w.table)
    (hvalid : ∀ p ∈ List.zip ops (runOps uid chatId ops w),
      p.1.isSwitch = true → p.2.1 = Except.ok "switch") :
    ∀ r ∈ runOps uid chatId ops w, activeSessCount r.2.table uid = 1 := by
  induction ops generalizing w with
  | nil =>
    intro r hr
    cases hr
  | cons op rest ih =>
    cases op with
    | create model =>
      obtain ⟨s, w1, hcs, henv, hcount, hnd1, hwfp⟩ :=
        create_session_count uid model w hget hput hupd hnd
      have happ : applyOp uid chatId (SessOp.create model) w =
          (.ok "created", w1) := by
        unfold applyOp
        simp only []
        rw [hcs]
      have happ2 : (applyOp uid chatId (SessOp.create model) w).2 = w1 := by
        rw [happ]
      have hrun : runOps uid chatId (SessOp.create model :: rest) w =
          (.ok "created", w1) :: runOps uid chatId rest w1 := by
        show applyOp uid chatId (SessOp.create model) w ::
            runOps uid chatId rest
              (applyOp uid chatId (SessOp.create model) w).2 =
          (.ok "created", w1) :: runOps uid chatId rest w1
        rw [happ2, happ]
      intro r hr
      rw [hrun] at hr
      rcases List.mem_cons.mp hr with h | h
      · rw [h]
        exact hcount
      · refine ih w1 ?_ ?_ ?_ ?_ hnd1 ?_ r h
        · rw [henv]; exact hget
        · rw [henv]; exact hput
        · rw [henv]; exact hupd
        · exact hwfp hwf
        · intro p hp
          apply hvalid p
          rw [hrun, List.zip_cons_cons]
          exact List.mem_cons_of_mem _ hp
    | switch payload =>
      have hhead : ((SessOp.switch payload, applyOp uid chatId
            (SessOp.switch payload) w)) ∈
          List.zip (SessOp.switch payload :: rest)
            (runOps uid chatId (SessOp.switch payload :: rest) w) := by
        unfold runOps
        simp only []
        rw [List.zip_cons_cons]
        exact List.mem_cons_self _ _
      have hres : (applyOp uid chatId (SessOp.switch payload) w).1 =
          Except.ok "switch" := hvalid _ hhead rfl
      have hsw : cmd_switch payload chatId uid w =
          (.ok "switch", (applyOp uid chatId (SessOp.switch payload) w).2) := by
        have : applyOp uid chatId (SessOp.switch payload) w =
            cmd_switch payload chatId uid w := rfl
        rw [← this, ← hres]
      obtain ⟨henv, hcount, hnd1, hwf1⟩ :=
        cmd_switch_count payload chatId uid w _ hget hupd hwf hnd hsw
      have hrun : runOps uid chatId (SessOp.switch payload :: rest) w =
          (.ok "switch", (applyOp uid chatId (SessOp.switch payload) w).2) ::
            runOps uid chatId rest
              (applyOp uid chatId (SessOp.switch payload) w).2 := by
        show applyOp uid chatId (SessOp.switch payload) w ::
            runOps uid chatId rest
              (applyOp uid chatId (SessOp.switch payload) w).2 =
          (.ok "switch", (applyOp uid chatId (SessOp.switch payload) w).2) ::
            runOps uid chatId rest
              (applyOp uid chatId (SessOp.switch payload) w).2
        exact congrArg
          (fun x => x :: runOps uid chatId rest
            (applyOp uid chatId (SessOp.switch payload) w).2)
          (@Prod.ext _ _ (applyOp uid chatId (SessOp.switch payload) w)
            (Except.ok "switch",
              (applyOp uid chatId (SessOp.switch payload) w).2) hres rfl)
      intro r hr
      rw [hrun] at hr
      rcases List.mem_cons.mp hr with h | h
      · rw [h]
        exact hcount
      · refine ih _ ?_ ?_ ?_ hwf1 hnd1 ?_ r h
        · rw [henv]; exact hget
        · rw [henv]; exact hput
        · rw [henv]; exact hupd
        · intro p hp
          apply hvalid p
          rw [hrun, List.zip_cons_cons]
          exact List.mem_cons_of_mem _ hp

instance : DecidableEq (Except PyErr String) := fun a b =>
  match a, b with
  | .ok x, .ok y =>
    if h : x = y then .isTrue (h ▸ rfl)
    else .isFalse (by intro hc; injection hc with h2; exact h h2)
  | .error x, .error y =>
    if h : x = y then .isTrue (h ▸ rfl)
    else .isFalse (by intro hc; injection hc with h2; exact h h2)
  | .ok x, .error y => .isFalse (by intro hc; injection hc)
  | .error x, .ok y => .isFalse (by intro hc; injection hc)

/-- Concrete instance of C2: create two sessions and switch back to the
first; after the final call exactly one row is active. -/
theorem claim_C2_single_active_invariant_witness :
    activeSessCount ((runOps 7 1
        [SessOp.create "m1", SessOp.create "m2", SessOp.switch "1"]
        baseWorld).get ⟨2, by decide⟩).2.table 7 = 1 :=
  claim_C2_single_active_invariant 7 1
    [SessOp.create "m1", SessOp.create "m2", SessOp.switch "1"] baseWorld
    rfl rfl rfl (by decide) (by unfold nodupKeys; decide) (by decide)
    _ (List.get_mem _ _ _)

end CloudAi
